import Mathlib

/-!
A shallow embedding of the `asc-rs` compiler (files `src/scanner.rs` and
`src/compiler.rs`) for checking its natural-language specification.

Modelling conventions:
* Source text is a `List Char`; the Rust `CharIndices` iterator becomes the
  `rest` suffix of the source, and byte offsets become character indices
  (all inputs considered here are ASCII, where the two coincide).
* Character classes and individual character comparisons are expressed via
  `Char.toNat` code points, mirroring the Rust `match` ranges (e.g.
  `'A'..='Z'` is `65 ≤ c ≤ 90`).
* Rust `Result<T, CompileError>` becomes `Except Err T`; a Rust panic
  (`unwrap()` failure / `unreachable!()`) is the distinguished `Err.panic`
  outcome, separate from `Err.compileError`.
* Scanner loops iterate structurally over the remaining input; the only
  non-structural recursion (`read_token` restarting itself after a comment)
  and the whole recursive-descent compiler take an explicit fuel parameter,
  with the top-level wrappers supplying generous fuel.
* The action buffer `Vec<u8>` becomes `Buf`: the list of emitted actions
  plus the running byte length, with each action's byte size taken from the
  AVM1 action encoding that the `swf` crate writer produces (opcode byte,
  plus a u16 length and payload for opcodes ≥ 0x80); the source itself
  records `JUMP_SIZE = 5` for `Jump`/`If`, matching this encoding.
-/

namespace Asc

/-- Token kinds, mirroring `enum TokenKind` in `src/scanner.rs`. -/
inductive TokenKind where
  | LeftParen | RightParen | LeftBrace | RightBrace | LeftSquareBrace | RightSquareBrace
  | Ampersand | AmpersandEqual | Bang | Bar | BarEqual | BangEqual | Caret | CaretEqual
  | Comma | Dot | Equal | DoubleEqual | TripleEqual
  | Greater | DoubleGreater | DoubleGreaterEqual | TripleGreater | TripleGreaterEqual | GreaterEqual
  | Less | LessEqual | DoubleLess | DoubleLessEqual
  | Minus | MinusEqual | DoubleMinus
  | Percent | PercentEqual
  | Plus | PlusEqual | DoublePlus
  | Colon | Semicolon
  | Slash | SlashEqual | Star | StarEqual | Tilda
  | False | Identifier | Null | Number | String | True | Undefined
  | Catch | Delete | Else | Finally | Function | If | InstanceOf | New
  | Throw | Trace | Try | Typeof | Var | While
  | Eof
  deriving DecidableEq, Repr

/-- A scanned token: kind, lexeme (`source` slice) and 1-based position,
mirroring `struct Token` in `src/scanner.rs`. -/
structure Token where
  kind : TokenKind
  source : List Char
  line : Nat
  column : Nat
  deriving DecidableEq, Repr

/-- `Token::INVALID`. -/
def Token.INVALID : Token := ⟨.Eof, [], 0, 0⟩

/-- Failure outcomes. `compileError` mirrors `struct CompileError`;
`panic` models a Rust panic (`unwrap` on `None`/`Err`, `unreachable!()`,
failed `try_into`); `outOfFuel` is an artifact of the fueled embedding and
is never produced when the wrapper's fuel bound is respected. -/
inductive Err where
  | compileError (message : String) (line : Nat) (column : Nat)
  | panic (message : String)
  | outOfFuel
  deriving DecidableEq, Repr

/-- Scanner state, mirroring `struct Scanner`: the full source, the
remaining input (the `CharIndices` iterator), and the offset/line/column
bookkeeping. -/
structure Scanner where
  src : List Char
  rest : List Char
  pos : Nat
  offset : Nat
  line : Nat
  column : Nat
  deriving DecidableEq, Repr

/-- `Scanner::new`. -/
def Scanner.new (src : List Char) : Scanner :=
  { src := src, rest := src, pos := 0, offset := 0, line := 1, column := 1 }

/-- `Scanner::read_char`: consume one character, updating `offset` to the
index of the character read (or to `src.length` at EOF) and the
line/column counters. `pos` is the index carried by the `CharIndices`
iterator (the number of characters consumed so far), so the index of the
character being read is `pos` itself, and at EOF `pos = src.length`. -/
def readChar (s : Scanner) : Option Char × Scanner :=
  match s.rest with
  | [] => (none, { s with offset := s.pos })
  | c :: rs =>
      (some c,
        { s with
          rest := rs
          pos := s.pos + 1
          offset := s.pos
          line := if c.toNat = 10 then s.line + 1 else s.line
          column := if c.toNat = 10 then 1 else s.column + 1 })

/-- `char::is_ascii_whitespace` (space, tab, newline, form feed, carriage
return). -/
def isWs (c : Char) : Bool :=
  c.toNat = 32 ∨ c.toNat = 9 ∨ c.toNat = 10 ∨ c.toNat = 12 ∨ c.toNat = 13

/-- ASCII decimal digit, the `'0'..='9'` pattern. -/
def isDigit (c : Char) : Bool :=
  48 ≤ c.toNat ∧ c.toNat ≤ 57

/-- First character of an identifier, the `'A'..='Z' | 'a'..='z' | '_' | '$'`
pattern. -/
def identStart (c : Char) : Bool :=
  (65 ≤ c.toNat ∧ c.toNat ≤ 90) ∨ (97 ≤ c.toNat ∧ c.toNat ≤ 122) ∨ c.toNat = 95 ∨ c.toNat = 36

/-- Continuation character of an identifier, the
`'A'..='Z' | 'a'..='z' | '0'..='9' | '_' | '$'` pattern. -/
def identCont (c : Char) : Bool :=
  (65 ≤ c.toNat ∧ c.toNat ≤ 90) ∨ (97 ≤ c.toNat ∧ c.toNat ≤ 122) ∨
    (48 ≤ c.toNat ∧ c.toNat ≤ 57) ∨ c.toNat = 95 ∨ c.toNat = 36

/-- The loop of `Scanner::skip_spaces`, iterating over the remaining
input (the list argument is the scanner's `rest`). -/
def skipSpacesGo : List Char → Scanner → Scanner
  | [], s => s
  | c :: rs, s => if isWs c then skipSpacesGo rs (readChar s).2 else s

/-- `Scanner::skip_spaces`. -/
def skipSpaces (s : Scanner) : Scanner :=
  skipSpacesGo s.rest s

/-- The loop of `Scanner::read_number` (peek a digit, consume it). -/
def readNumberGo : List Char → Scanner → Scanner
  | [], s => s
  | c :: rs, s => if isDigit c then readNumberGo rs (readChar s).2 else s

/-- The loop of `Scanner::read_string`: consume until the closing quote;
on EOF report "Unclosed string" at the line/column captured when
`read_string` was entered (i.e. just after the opening quote was
consumed). -/
def readStringGo (quote : Char) (line column : Nat) : List Char → Scanner → Except Err Scanner
  | [], _ => .error (.compileError "Unclosed string" line column)
  | c :: rs, s =>
      let s1 := (readChar s).2
      if c = quote then .ok s1 else readStringGo quote line column rs s1

/-- `Scanner::read_string`. -/
def readString (quote : Char) (s : Scanner) : Except Err Scanner :=
  readStringGo quote s.line s.column s.rest s

/-- The loop of `Scanner::read_identifier` (peek an identifier
continuation character, consume it). -/
def readIdentifierGo : List Char → Scanner → Scanner
  | [], s => s
  | c :: rs, s => if identCont c then readIdentifierGo rs (readChar s).2 else s

/-- `Scanner::read_identifier`: consume the identifier tail and return the
lexeme slice `source[start ..= offset]` (clamped to the source length). -/
def readIdentifier (s : Scanner) : List Char × Scanner :=
  let start := s.offset
  let s1 := readIdentifierGo s.rest s
  let stop := min (s1.offset + 1) s1.src.length
  (((s1.src.drop start).take (stop - start)), s1)

/-- The keyword table at the end of `Scanner::read_token`: promote an
identifier lexeme to a keyword kind. -/
def keywordKind (lexeme : List Char) : TokenKind :=
  if lexeme = "catch".toList then .Catch
  else if lexeme = "delete".toList then .Delete
  else if lexeme = "else".toList then .Else
  else if lexeme = "false".toList then .False
  else if lexeme = "finally".toList then .Finally
  else if lexeme = "function".toList then .Function
  else if lexeme = "if".toList then .If
  else if lexeme = "instanceof".toList then .InstanceOf
  else if lexeme = "new".toList then .New
  else if lexeme = "null".toList then .Null
  else if lexeme = "throw".toList then .Throw
  else if lexeme = "trace".toList then .Trace
  else if lexeme = "true".toList then .True
  else if lexeme = "try".toList then .Try
  else if lexeme = "typeof".toList then .Typeof
  else if lexeme = "undefined".toList then .Undefined
  else if lexeme = "var".toList then .Var
  else if lexeme = "while".toList then .While
  else .Identifier

/-- The loop of the `//` line-comment branch of `Scanner::read_token`:
consume until a newline or EOF. -/
def lineCommentGo : List Char → Scanner → Scanner
  | [], s => (readChar s).2
  | c :: rs, s =>
      let s1 := (readChar s).2
      if c.toNat = 10 then s1 else lineCommentGo rs s1

/-- The loop of the `/*` block-comment branch of `Scanner::read_token`.
Faithful to the source: after reading a `*` (or hitting EOF) it reads one
more character and breaks only if that character is `/` (or EOF); a
non-`/` lookahead character is discarded without being re-examined. -/
def blockCommentGo : List Char → Scanner → Scanner
  | [], s => (readChar (readChar s).2).2
  | c :: rs, s =>
      let s1 := (readChar s).2
      if c.toNat = 42 then
        match rs with
        | [] => (readChar s1).2
        | d :: rs2 =>
            let s2 := (readChar s1).2
            if d.toNat = 47 then s2 else blockCommentGo rs2 s2
      else blockCommentGo rs s1

/-- Peek helper (`self.chars.peek()`), returning the next character
without consuming it. -/
def peekChar (s : Scanner) : Option Char :=
  s.rest.head?

/-- One peek-then-maybe-consume step for two-character operators such as
`&=`: if the next character equals `c`, consume it and produce `two`,
otherwise produce `one`. -/
def twoChar (s : Scanner) (c : Char) (two one : TokenKind) : TokenKind × Scanner :=
  match peekChar s with
  | some d => if d = c then (two, (readChar s).2) else (one, s)
  | none => (one, s)

/-- `Scanner::read_token`. The fuel only bounds the self-restart after a
comment (which always consumes at least two characters), so
`rest.length + 1` fuel always suffices. -/
def readTokenF : Nat → Scanner → Except Err (Token × Scanner)
  | 0, _ => .error .outOfFuel
  | fuel + 1, s0 =>
    let previousLine := s0.line
    let previousColumn := s0.column
    let s := skipSpaces s0
    let line := s.line
    let column := s.column
    let (c?, s) := readChar s
    let start := s.offset
    let finish : TokenKind → Nat → Nat → Scanner → Except Err (Token × Scanner) :=
      fun kind line column s1 =>
        let stop := min (s1.offset + 1) s1.src.length
        let source := (s1.src.drop start).take (stop - start)
        .ok (⟨kind, source, line, column⟩, s1)
    match c? with
    | none => finish .Eof previousLine previousColumn s
    | some c =>
      if c.toNat = 40 then finish .LeftParen line column s          -- '('
      else if c.toNat = 41 then finish .RightParen line column s    -- ')'
      else if c.toNat = 123 then finish .LeftBrace line column s    -- 0x7b
      else if c.toNat = 125 then finish .RightBrace line column s   -- 0x7d
      else if c.toNat = 91 then finish .LeftSquareBrace line column s   -- '['
      else if c.toNat = 93 then finish .RightSquareBrace line column s  -- ']'
      else if c.toNat = 38 then                                     -- '&'
        let (k, s) := twoChar s '=' .AmpersandEqual .Ampersand
        finish k line column s
      else if c.toNat = 33 then                                     -- '!'
        let (k, s) := twoChar s '=' .BangEqual .Bang
        finish k line column s
      else if c.toNat = 124 then                                    -- '|'
        let (k, s) := twoChar s '=' .BarEqual .Bar
        finish k line column s
      else if c.toNat = 94 then                                     -- '^'
        let (k, s) := twoChar s '=' .CaretEqual .Caret
        finish k line column s
      else if c.toNat = 44 then finish .Comma line column s         -- ','
      else if c.toNat = 46 then finish .Dot line column s           -- '.'
      else if c.toNat = 61 then                                     -- '='
        match peekChar s with
        | some d =>
          if d.toNat = 61 then
            let s := (readChar s).2
            let (k, s) := twoChar s '=' .TripleEqual .DoubleEqual
            finish k line column s
          else finish .Equal line column s
        | none => finish .Equal line column s
      else if c.toNat = 62 then                                     -- '>'
        match peekChar s with
        | some d =>
          if d.toNat = 61 then finish .GreaterEqual line column (readChar s).2
          else if d.toNat = 62 then
            let s := (readChar s).2
            match peekChar s with
            | some e =>
              if e.toNat = 61 then finish .DoubleGreaterEqual line column (readChar s).2
              else if e.toNat = 62 then
                let s := (readChar s).2
                let (k, s) := twoChar s '=' .TripleGreaterEqual .TripleGreater
                finish k line column s
              else finish .DoubleGreater line column s
            | none => finish .DoubleGreater line column s
          else finish .Greater line column s
        | none => finish .Greater line column s
      else if c.toNat = 60 then                                     -- '<'
        match peekChar s with
        | some d =>
          if d.toNat = 61 then finish .LessEqual line column (readChar s).2
          else if d.toNat = 60 then
            let s := (readChar s).2
            let (k, s) := twoChar s '=' .DoubleLessEqual .DoubleLess
            finish k line column s
          else finish .Less line column s
        | none => finish .Less line column s
      else if c.toNat = 45 then                                     -- '-'
        match peekChar s with
        | some d =>
          if d.toNat = 61 then finish .MinusEqual line column (readChar s).2
          else if d.toNat = 45 then finish .DoubleMinus line column (readChar s).2
          else finish .Minus line column s
        | none => finish .Minus line column s
      else if c.toNat = 37 then                                     -- '%'
        let (k, s) := twoChar s '=' .PercentEqual .Percent
        finish k line column s
      else if c.toNat = 43 then                                     -- '+'
        match peekChar s with
        | some d =>
          if d.toNat = 61 then finish .PlusEqual line column (readChar s).2
          else if d.toNat = 43 then finish .DoublePlus line column (readChar s).2
          else finish .Plus line column s
        | none => finish .Plus line column s
      else if c.toNat = 58 then finish .Colon line column s         -- ':'
      else if c.toNat = 59 then finish .Semicolon line column s     -- ';'
      else if c.toNat = 47 then                                     -- '/'
        match peekChar s with
        | some d =>
          if d.toNat = 47 then readTokenF fuel (lineCommentGo s.rest s)
          else if d.toNat = 42 then
            let s := (readChar s).2
            readTokenF fuel (blockCommentGo s.rest s)
          else if d.toNat = 61 then finish .SlashEqual line column (readChar s).2
          else finish .Slash line column s
        | none => finish .Slash line column s
      else if c.toNat = 42 then                                     -- '*'
        let (k, s) := twoChar s '=' .StarEqual .Star
        finish k line column s
      else if c.toNat = 126 then finish .Tilda line column s        -- '~'
      else if isDigit c then finish .Number line column (readNumberGo s.rest s)
      else if c.toNat = 34 ∨ c.toNat = 39 then                      -- quote
        match readString c s with
        | .ok s1 => finish .String line column s1
        | .error e => .error e
      else if identStart c then
        let (lexeme, s1) := readIdentifier s
        finish (keywordKind lexeme) line column s1
      else
        .error (.compileError ("Unknown character \x27" ++ String.mk [c] ++ "\x27") line column)

/-- Read one token with the always-sufficient fuel bound. -/
def scanRead (s : Scanner) : Except Err (Token × Scanner) :=
  readTokenF (s.rest.length + 1) s

/-- `enum Precedence` from `src/compiler.rs` (the commented-out `Or`/`And`
levels are omitted there too). -/
inductive Precedence where
  | None | Assignment | BitwiseOr | BitwiseXor | BitwiseAnd | Equality | Comparison
  | BitwiseShift | Term | Factor | Unary | Call | Construct | Delete | Path | Primary
  deriving DecidableEq, Repr

/-- Declaration-order index, realising the derived `PartialOrd`/`Ord`. -/
def Precedence.toNat : Precedence → Nat
  | .None => 0
  | .Assignment => 1
  | .BitwiseOr => 2
  | .BitwiseXor => 3
  | .BitwiseAnd => 4
  | .Equality => 5
  | .Comparison => 6
  | .BitwiseShift => 7
  | .Term => 8
  | .Factor => 9
  | .Unary => 10
  | .Call => 11
  | .Construct => 12
  | .Delete => 13
  | .Path => 14
  | .Primary => 15

/-- The derived `<=` on `Precedence`. -/
def Precedence.le (a b : Precedence) : Bool :=
  a.toNat ≤ b.toNat

/-- The derived `<` on `Precedence`. -/
def Precedence.lt (a b : Precedence) : Bool :=
  a.toNat < b.toNat

/-- `Precedence::can_assign`. -/
def Precedence.canAssign (p : Precedence) : Bool :=
  Precedence.le p .Assignment

/-- `Precedence::is_construct`. -/
def Precedence.isConstruct (p : Precedence) : Bool :=
  p == Precedence.Construct

/-- `Precedence::is_delete`. -/
def Precedence.isDelete (p : Precedence) : Bool :=
  p == Precedence.Delete

/-- `TokenKind::precedence`. -/
def TokenKind.precedence : TokenKind → Precedence
  | .Dot | .LeftSquareBrace => .Path
  | .LeftParen => .Call
  | .Bang | .Delete | .Tilda | .Throw | .Typeof => .Unary
  | .Star | .Slash | .Percent => .Factor
  | .Plus | .Minus => .Term
  | .DoubleGreater | .TripleGreater | .DoubleLess => .BitwiseShift
  | .Greater | .GreaterEqual | .Less | .LessEqual | .InstanceOf => .Comparison
  | .BangEqual | .DoubleEqual | .TripleEqual => .Equality
  | .Ampersand => .BitwiseAnd
  | .Caret => .BitwiseXor
  | .Bar => .BitwiseOr
  | _ => .None

/-- `TokenKind::is_assign`. -/
def TokenKind.isAssign : TokenKind → Bool
  | .Equal | .PlusEqual | .MinusEqual | .StarEqual | .SlashEqual | .PercentEqual
  | .AmpersandEqual | .BarEqual | .CaretEqual
  | .DoubleGreaterEqual | .TripleGreaterEqual | .DoubleLessEqual => true
  | _ => false

/-- `property_index`: the 22-entry magic-property table. -/
def propertyIndex (name : List Char) : Option Int :=
  if name = "_x".toList then some 0
  else if name = "_y".toList then some 1
  else if name = "_xscale".toList then some 2
  else if name = "_yscale".toList then some 3
  else if name = "_currentframe".toList then some 4
  else if name = "_totalframes".toList then some 5
  else if name = "_alpha".toList then some 6
  else if name = "_visible".toList then some 7
  else if name = "_width".toList then some 8
  else if name = "_height".toList then some 9
  else if name = "_rotation".toList then some 10
  else if name = "_target".toList then some 11
  else if name = "_framesloaded".toList then some 12
  else if name = "_name".toList then some 13
  else if name = "_droptarget".toList then some 14
  else if name = "_url".toList then some 15
  else if name = "_highquality".toList then some 16
  else if name = "_focusrect".toList then some 17
  else if name = "_soundbuftime".toList then some 18
  else if name = "_quality".toList then some 19
  else if name = "_xmouse".toList then some 20
  else if name = "_ymouse".toList then some 21
  else none

/-- `u8::from_str` on an identifier-tail slice: one or more ASCII digits
whose value fits in a byte. (Identifier lexemes cannot contain the `+`
sign that Rust's parser would also accept.) -/
def parseU8 (s : List Char) : Option Nat :=
  if s ≠ [] ∧ s.all isDigit then
    let n := s.foldl (fun acc c => acc * 10 + (c.toNat - 48)) 0
    if n ≤ 255 then some n else none
  else none

/-- `register_index`: `name.strip_prefix("register").and_then(parse)`. -/
def registerIndex (name : List Char) : Option Nat :=
  if name.take 8 = "register".toList then parseU8 (name.drop 8) else none

/-- `i32::from_str` on a `Number` lexeme (one or more ASCII digits);
`none` models the overflow `Err` that `unwrap` then turns into a panic. -/
def parseI32 (s : List Char) : Option Int :=
  if s ≠ [] ∧ s.all isDigit then
    let n := s.foldl (fun acc c => acc * 10 + (c.toNat - 48)) 0
    if n ≤ 2147483647 then some (Int.ofNat n) else none
  else none

/-- `swf::avm1::types::Value` as pushed by this compiler. The `double`
payload only ever carries `u32::MAX` (for `~`). -/
inductive Value where
  | str (s : List Char)
  | int (n : Int)
  | double (n : Nat)
  | boolean (b : Bool)
  | null
  | undefined
  | register (n : Nat)
  deriving DecidableEq, Repr

/-- Catch binding of a `Try` action. -/
inductive CatchVar where
  | var (name : List Char)
  | register (n : Nat)
  deriving DecidableEq, Repr

/-- The AVM1 actions emitted by this compiler (`swf::avm1::types::Action`
variants used in `src/compiler.rs`). `defineFunction` and `tryA` carry
their embedded body action lists together with the bodies' byte lengths,
mirroring the code-size fields of the wire encoding. -/
inductive Action where
  | push (v : Value)
  | not | pop | trace
  | add2 | subtract | multiply | divide | modulo
  | bitAnd | bitOr | bitXor | bitLShift | bitRShift | bitURShift
  | equals2 | strictEquals | greater | less | instanceOfA
  | toNumber | throw | typeOf
  | increment | decrement
  | getVariable | setVariable | defineLocal | defineLocal2
  | getMember | setMember | getProperty | setProperty
  | pushDuplicate | stackSwap
  | callFunction | callMethod | newObject | newMethod
  | delete | delete2
  | storeRegister (n : Nat)
  | initArray | initObject
  | ifA (offset : Int)
  | jump (offset : Int)
  | defineFunction (name : List Char) (params : List (List Char))
      (body : List Action) (bodyLen : Nat)
  | tryA (tryBody : List Action) (tryLen : Nat)
      (catchPart : Option (CatchVar × List Action × Nat))
      (finallyPart : Option (List Action × Nat))
  | callA | cloneSprite | asciiToChar | getTime | toInteger | stringLength
  | mbAsciiToChar | mbStringLength | mbCharToAscii | mbStringExtract
  | nextFrame | charToAscii | play | previousFrame | randomNumber | stop
  | stopSounds | endDrag | targetPath | toggleQuality

/-- Byte size of one pushed value in the AVM1 `Push` payload
(type byte plus payload; strings are NUL-terminated). -/
def Value.vsize : Value → Nat
  | .str s => 1 + s.length + 1
  | .int _ => 5
  | .double _ => 9
  | .boolean _ => 2
  | .null => 1
  | .undefined => 1
  | .register _ => 2

/-- Byte size of one emitted action in the AVM1 encoding produced by the
`swf` writer: one opcode byte, plus a u16 length and the payload for
opcodes with data. `Jump`/`If` take 5 bytes, matching the source's
`JUMP_SIZE = 5`. -/
def asize : Action → Nat
  | .push v => 3 + v.vsize
  | .ifA _ => 5
  | .jump _ => 5
  | .storeRegister _ => 4
  | .defineFunction name params _ bodyLen =>
      3 + (name.length + 1) + 2 + (params.map (fun p => p.length + 1)).sum + 2 + bodyLen
  | .tryA _ tryLen catchPart finallyPart =>
      3 + 7 +
        (match catchPart with
          | some (.var v, _, _) => v.length + 1
          | some (.register _, _, _) => 1
          | none => 1) +
        tryLen +
        (match catchPart with
          | some (_, _, l) => l
          | none => 0) +
        (match finallyPart with
          | some (_, l) => l
          | none => 0)
  | .callA => 3
  | _ => 1

/-- The action buffer: the model of the `action_data: Vec<u8>` field,
kept as the list of written actions plus the byte length of their
encoding (`len` is what `Vec::len` returns on the byte vector). -/
structure Buf where
  acts : List Action
  len : Nat

/-- The empty buffer. -/
def Buf.empty : Buf := ⟨[], 0⟩

/-- Compiler state: `CompilerState` (scanner + one-token lookahead)
together with the active `Compiler` action buffer. -/
structure CState where
  scanner : Scanner
  current : Token
  buffer : Buf

/-- `Compiler::read_token`: scan the next token into the lookahead and
return the previous lookahead (`mem::replace`). -/
def CState.readToken (st : CState) : Except Err (Token × CState) :=
  match scanRead st.scanner with
  | .error e => .error e
  | .ok (next, sc) => .ok (st.current, { st with scanner := sc, current := next })

/-- `Compiler::consume`. -/
def CState.consume (kind : TokenKind) (st : CState) : Except Err (Bool × CState) :=
  if st.current.kind = kind then
    match st.readToken with
    | .error e => .error e
    | .ok (_, st1) => .ok (true, st1)
  else .ok (false, st)

/-- `Compiler::expect`: like `consume` but failing with the given message
at the lookahead's position; returns the consumed token. -/
def CState.expect (kind : TokenKind) (message : String) (st : CState) :
    Except Err (Token × CState) :=
  if st.current.kind = kind then st.readToken
  else .error (.compileError message st.current.line st.current.column)

/-- `Compiler::write_action`: append one action to the buffer. -/
def writeAction (a : Action) (st : CState) : CState :=
  { st with buffer := ⟨st.buffer.acts ++ [a], st.buffer.len + asize a⟩ }

/-- `Compiler::push` (a `Push` action with a single value). -/
def push (v : Value) (st : CState) : CState :=
  writeAction (.push v) st

/-- `self.action_data.extend(..)`: splice a finished sub-buffer. -/
def extendData (b : Buf) (st : CState) : CState :=
  { st with buffer := ⟨st.buffer.acts ++ b.acts, st.buffer.len + b.len⟩ }

/-- `Compiler::nested`: run a compilation against a fresh empty buffer,
returning the bytes it produced and restoring the outer buffer. -/
def nested (f : CState → Except Err CState) (st : CState) :
    Except Err (Buf × CState) :=
  match f { st with buffer := Buf.empty } with
  | .error e => .error e
  | .ok st1 => .ok (st1.buffer, { st1 with buffer := st.buffer })

/-- The builtin table embedded in the `Identifier` arm of
`expression_with_precedence`: builtin name to (action, arity). -/
def builtinLookup (name : List Char) : Option (Action × Nat) :=
  if name = "call".toList then some (.callA, 1)
  else if name = "duplicateMovieClip".toList then some (.cloneSprite, 3)
  else if name = "chr".toList then some (.asciiToChar, 1)
  else if name = "eval".toList then some (.getVariable, 1)
  else if name = "getTimer".toList then some (.getTime, 0)
  else if name = "int".toList then some (.toInteger, 1)
  else if name = "length".toList then some (.stringLength, 1)
  else if name = "mbchr".toList then some (.mbAsciiToChar, 1)
  else if name = "mblength".toList then some (.mbStringLength, 1)
  else if name = "mbord".toList then some (.mbCharToAscii, 1)
  else if name = "mbsubstring".toList then some (.mbStringExtract, 3)
  else if name = "nextFrame".toList then some (.nextFrame, 0)
  else if name = "ord".toList then some (.charToAscii, 1)
  else if name = "play".toList then some (.play, 0)
  else if name = "prevFrame".toList then some (.previousFrame, 0)
  else if name = "random".toList then some (.randomNumber, 1)
  else if name = "stop".toList then some (.stop, 0)
  else if name = "stopAllSounds".toList then some (.stopSounds, 0)
  else if name = "stopDrag".toList then some (.endDrag, 0)
  else if name = "targetPath".toList then some (.targetPath, 1)
  else if name = "toggleHighQuality".toList then some (.toggleQuality, 0)
  else none

/-- The loop of `Compiler::comma_separated`: parse comma-separated items
until the terminator, enforcing an optional maximum arity; returns the
item count and the token the loop broke on (the consumed terminator). -/
def commaSepLoop (f : CState → Except Err CState) (terminator : TokenKind)
    (arity : Option Nat) : Nat → Nat → CState → Except Err (Nat × Token × CState)
  | 0, _, _ => .error .outOfFuel
  | fuel + 1, count, st =>
    let token := st.current
    if token.kind = terminator then
      match st.readToken with
      | .error e => .error e
      | .ok (tok, st1) => .ok (count, tok, st1)
    else
      let count1 := count + 1
      match
        (match arity with
          | some a =>
            if count1 > a then
              .error (.compileError
                ("Expected " ++ toString a ++ " argument(s), got " ++ toString count1)
                token.line token.column)
            else .ok ()
          | none => .ok () : Except Err Unit) with
      | .error e => .error e
      | .ok _ =>
        match f st with
        | .error e => .error e
        | .ok st1 =>
          match st1.consume .Comma with
          | .error e => .error e
          | .ok (true, st2) => commaSepLoop f terminator arity fuel count1 st2
          | .ok (false, st2) =>
            match st2.expect terminator "Expected end of values" with
            | .error e => .error e
            | .ok (tok, st3) => .ok (count1, tok, st3)

/-- `Compiler::comma_separated` (loop plus the final minimum-arity
check, reported at the terminator token). -/
def commaSeparated (f : CState → Except Err CState) (terminator : TokenKind)
    (arity : Option Nat) (fuel : Nat) (st : CState) : Except Err (Nat × CState) :=
  match commaSepLoop f terminator arity fuel 0 st with
  | .error e => .error e
  | .ok (count, token, st1) =>
    match arity with
    | some a =>
      if count < a then
        .error (.compileError
          ("Expected " ++ toString a ++ " argument(s), got " ++ toString count)
          token.line token.column)
      else .ok (count, st1)
    | none => .ok (count, st1)

/-- The loop of `Compiler::comma_separated_rev`: like `comma_separated`
but compiling each item into its own nested buffer. -/
def commaSepRevLoop (f : CState → Except Err CState) (terminator : TokenKind) :
    Nat → List Buf → CState → Except Err (List Buf × CState)
  | 0, _, _ => .error .outOfFuel
  | fuel + 1, values, st =>
    if st.current.kind = terminator then
      match st.readToken with
      | .error e => .error e
      | .ok (_, st1) => .ok (values, st1)
    else
      match nested f st with
      | .error e => .error e
      | .ok (buf, st1) =>
        let values1 := values ++ [buf]
        match st1.consume .Comma with
        | .error e => .error e
        | .ok (true, st2) => commaSepRevLoop f terminator fuel values1 st2
        | .ok (false, st2) =>
          match st2.expect terminator "Expected end of values" with
          | .error e => .error e
          | .ok (_, st3) => .ok (values1, st3)

/-- `Compiler::comma_separated_rev`: splice the collected item buffers in
reverse source order and return the count. -/
def commaSeparatedRev (f : CState → Except Err CState) (terminator : TokenKind)
    (fuel : Nat) (st : CState) : Except Err (Nat × CState) :=
  match commaSepRevLoop f terminator fuel [] st with
  | .error e => .error e
  | .ok (values, st1) =>
    let st2 := values.reverse.foldl (fun acc b => extendData b acc) st1
    .ok (values.length, st2)

/-- `Compiler::prefix` (prefix `++`/`--` on an identifier or register). -/
def prefixOp (tokenKind : TokenKind) (st : CState) : Except Err CState :=
  match st.expect .Identifier "Expected variable" with
  | .error e => .error e
  | .ok (v, st1) =>
    let register := registerIndex v.source
    let st2 := match register with
      | some r => push (.register r) st1
      | none => writeAction .getVariable (push (.str v.source) (push (.str v.source) st1))
    match
      (match tokenKind with
        | .DoublePlus => .ok (writeAction .increment st2)
        | .DoubleMinus => .ok (writeAction .decrement st2)
        | _ => .error (.panic "entered unreachable code") : Except Err CState) with
    | .error e => .error e
    | .ok st3 =>
      match register with
      | some r => .ok (writeAction (.storeRegister r) st3)
      | none => .ok (writeAction .setVariable st3)

/-- The parameter-list loop of `Compiler::function_body`. -/
def paramsLoop : Nat → List (List Char) → CState → Except Err (List (List Char) × CState)
  | 0, _, _ => .error .outOfFuel
  | fuel + 1, params, st =>
    match st.consume .RightParen with
    | .error e => .error e
    | .ok (true, st1) => .ok (params, st1)
    | .ok (false, st1) =>
      match st1.expect .Identifier "Expected parameter name" with
      | .error e => .error e
      | .ok (p, st2) =>
        let params1 := params ++ [p.source]
        match st2.consume .Comma with
        | .error e => .error e
        | .ok (true, st3) => paramsLoop fuel params1 st3
        | .ok (false, st3) =>
          match st3.expect .RightParen "Expected \x27)\x27" with
          | .error e => .error e
          | .ok (_, st4) => .ok (params1, st4)

mutual

/-- `Compiler::expression_with_precedence`: prefix dispatch, infix loop,
then the assignment/construct/delete post-condition checks. -/
def expressionWithPrecedence : Nat → Precedence → CState → Except Err CState
  | 0, _, _ => .error .outOfFuel
  | fuel + 1, precedence, st =>
    match st.readToken with
    | .error e => .error e
    | .ok (token, st1) =>
      match
        (match token.kind with
          | .LeftParen => grouping fuel st1
          | .LeftSquareBrace => array fuel st1
          | .LeftBrace => object fuel st1
          | .New => construct fuel st1
          | .Delete => deleteExpression fuel st1
          | .Plus | .Minus | .Tilda | .Bang | .Throw | .Typeof => unary fuel token.kind st1
          | .DoublePlus | .DoubleMinus => prefixOp token.kind st1
          | .Number =>
            match parseI32 token.source with
            | some n => .ok (push (.int n) st1)
            | none => .error (.panic "unwrap on Err")
          | .String =>
            .ok (push (.str ((token.source.drop 1).take (token.source.length - 2))) st1)
          | .False => .ok (push (.boolean false) st1)
          | .Null => .ok (push .null st1)
          | .True => .ok (push (.boolean true) st1)
          | .Undefined => .ok (push .undefined st1)
          | .Function => functionExpression fuel st1
          | .Identifier =>
            match builtinLookup token.source with
            | some (action, arity) => builtin fuel action arity st1
            | none => variableAccess fuel token.source precedence st1
          | .Eof => .error (.compileError "Unexpected end of file" token.line token.column)
          | _ =>
            .error (.compileError
              ("Unexpected token: \"" ++ String.mk token.source ++ "\"")
              token.line token.column) : Except Err CState) with
      | .error e => .error e
      | .ok st2 =>
        match infixLoop fuel precedence st2 with
        | .error e => .error e
        | .ok st3 =>
          if precedence.canAssign ∧ st3.current.kind = .Equal then
            .error (.compileError "Invalid assignment target"
              st3.current.line st3.current.column)
          else if precedence.isConstruct ∧
              Precedence.lt st3.current.kind.precedence .Construct ∧
              st3.current.kind.precedence ≠ .None then
            .error (.compileError "Invalid construct target"
              st3.current.line st3.current.column)
          else if precedence.isDelete ∧
              Precedence.lt st3.current.kind.precedence .Call ∧
              st3.current.kind.precedence ≠ .None then
            .error (.compileError "Invalid delete target"
              st3.current.line st3.current.column)
          else .ok st3

/-- The infix `while` loop inside `expression_with_precedence`. -/
def infixLoop : Nat → Precedence → CState → Except Err CState
  | 0, _, _ => .error .outOfFuel
  | fuel + 1, precedence, st =>
    if Precedence.le precedence st.current.kind.precedence then
      match st.readToken with
      | .error e => .error e
      | .ok (token, st1) =>
        match
          (match token.kind with
            | .Dot => dot fuel precedence st1
            | .LeftSquareBrace => memberAccess fuel precedence st1
            | _ => binary fuel token st1 : Except Err CState) with
        | .error e => .error e
        | .ok st2 => infixLoop fuel precedence st2
    else .ok st

/-- `Compiler::expression`. -/
def expression : Nat → CState → Except Err CState
  | 0, _ => .error .outOfFuel
  | fuel + 1, st => expressionWithPrecedence fuel .Assignment st

/-- `Compiler::grouping`. -/
def grouping : Nat → CState → Except Err CState
  | 0, _ => .error .outOfFuel
  | fuel + 1, st =>
    match expression fuel st with
    | .error e => .error e
    | .ok st1 =>
      match st1.expect .RightParen "Expected \x27)\x27 after expression" with
      | .error e => .error e
      | .ok (_, st2) => .ok st2

/-- `Compiler::array` (reverse-spliced elements, then count and
`InitArray`); the `try_into` on the count models the `i32` conversion. -/
def array : Nat → CState → Except Err CState
  | 0, _ => .error .outOfFuel
  | fuel + 1, st =>
    match commaSeparatedRev (expression fuel) .RightSquareBrace fuel st with
    | .error e => .error e
    | .ok (count, st1) =>
      if count ≤ 2147483647 then
        .ok (writeAction .initArray (push (.int count) st1))
      else .error (.panic "TryFromIntError")

/-- `Compiler::object` (`identifier: expression` pairs, then count and
`InitObject`). -/
def object : Nat → CState → Except Err CState
  | 0, _ => .error .outOfFuel
  | fuel + 1, st =>
    match commaSeparated
        (fun st0 =>
          match st0.expect .Identifier "Expected property name" with
          | .error e => .error e
          | .ok (name, st1) =>
            let st2 := push (.str name.source) st1
            match st2.expect .Colon "Expected \x27:\x27 after property name" with
            | .error e => .error e
            | .ok (_, st3) => expression fuel st3)
        .RightBrace none fuel st with
    | .error e => .error e
    | .ok (count, st1) =>
      if count ≤ 2147483647 then
        .ok (writeAction .initObject (push (.int count) st1))
      else .error (.panic "TryFromIntError")

/-- `Compiler::access`: the shared six-mode lvalue/rvalue protocol over
`push`/`duplicate`/`get`/`set` emitter callbacks. -/
def access : Nat → (CState → CState) → (CState → CState) → (CState → CState) →
    (CState → CState) → Bool → CState → Except Err CState
  | 0, _, _, _, _, _, _ => .error .outOfFuel
  | fuel + 1, pushKey, duplicate, get, set, canAssign, st =>
    if canAssign ∧ st.current.kind.isAssign then
      match st.readToken with
      | .error e => .error e
      | .ok (token, st1) =>
        let st2 :=
          if token.kind = .Equal then pushKey st1
          else get (pushKey (duplicate st1))
        match expression fuel st2 with
        | .error e => .error e
        | .ok st3 =>
          match
            (match token.kind with
              | .Equal => .ok st3
              | .PlusEqual => .ok (writeAction .add2 st3)
              | .MinusEqual => .ok (writeAction .subtract st3)
              | .StarEqual => .ok (writeAction .multiply st3)
              | .SlashEqual => .ok (writeAction .divide st3)
              | .PercentEqual => .ok (writeAction .modulo st3)
              | .AmpersandEqual => .ok (writeAction .bitAnd st3)
              | .BarEqual => .ok (writeAction .bitOr st3)
              | .CaretEqual => .ok (writeAction .bitXor st3)
              | .DoubleGreaterEqual => .ok (writeAction .bitRShift st3)
              | .TripleGreaterEqual => .ok (writeAction .bitURShift st3)
              | .DoubleLessEqual => .ok (writeAction .bitLShift st3)
              | _ => .error (.panic "entered unreachable code") : Except Err CState) with
          | .error e => .error e
          | .ok st4 => .ok (set st4)
    else
      match st.consume .DoublePlus with
      | .error e => .error e
      | .ok (true, st1) =>
        .ok (set (writeAction .increment (get (pushKey (duplicate st1)))))
      | .ok (false, st1) =>
        match st1.consume .DoubleMinus with
        | .error e => .error e
        | .ok (true, st2) =>
          .ok (set (writeAction .decrement (get (pushKey (duplicate st2)))))
        | .ok (false, st2) => .ok (get (pushKey st2))

/-- `Compiler::variable_access`: call / delete / generic access on an
identifier, with the register special cases. -/
def variableAccess : Nat → List Char → Precedence → CState → Except Err CState
  | 0, _, _, _ => .error .outOfFuel
  | fuel + 1, name, precedence, st =>
    let register := registerIndex name
    match st.consume .LeftParen with
    | .error e => .error e
    | .ok (true, st1) =>
      if register.isSome then
        .error (.compileError "Cannot call register" st1.current.line st1.current.column)
      else
        match commaSeparatedRev (expression fuel) .RightParen fuel st1 with
        | .error e => .error e
        | .ok (count, st2) =>
          if count ≤ 2147483647 then
            let st3 := push (.str name) (push (.int count) st2)
            if precedence.isConstruct then .ok (writeAction .newObject st3)
            else .ok (writeAction .callFunction st3)
          else .error (.panic "TryFromIntError")
    | .ok (false, st1) =>
      if precedence.isDelete ∧ Precedence.lt st1.current.kind.precedence .Call then
        if register.isSome then
          .error (.compileError "Cannot delete register" st1.current.line st1.current.column)
        else .ok (writeAction .delete2 (push (.str name) st1))
      else
        access fuel
          (fun this => match register with
            | some _ => this
            | none => push (.str name) this)
          (fun this => match register with
            | some _ => this
            | none => push (.str name) this)
          (fun this => match register with
            | some r => push (.register r) this
            | none => writeAction .getVariable this)
          (fun this => match register with
            | some r => writeAction (.storeRegister r) this
            | none => writeAction .setVariable this)
          precedence.canAssign st1

/-- `Compiler::dot`: `.name` access, with method call, delete and the
magic-property dispatch. -/
def dot : Nat → Precedence → CState → Except Err CState
  | 0, _, _ => .error .outOfFuel
  | fuel + 1, precedence, st =>
    match st.expect .Identifier "Expected name" with
    | .error e => .error e
    | .ok (name, st1) =>
      match st1.consume .LeftParen with
      | .error e => .error e
      | .ok (true, st2) =>
        match commaSeparatedRev (expression fuel) .RightParen fuel st2 with
        | .error e => .error e
        | .ok (count, st3) =>
          if count ≤ 2147483647 then
            let st4 := push (.str name.source)
              (writeAction .stackSwap (push (.int count) st3))
            if precedence.isConstruct then .ok (writeAction .newMethod st4)
            else .ok (writeAction .callMethod st4)
          else .error (.panic "TryFromIntError")
      | .ok (false, st2) =>
        if precedence.isDelete ∧ Precedence.lt st2.current.kind.precedence .Call then
          .ok (writeAction .delete (push (.str name.source) st2))
        else
          let property := propertyIndex name.source
          let pushKey := fun this => match property with
            | some p => push (.int p) this
            | none => push (.str name.source) this
          access fuel
            pushKey
            (fun this => writeAction .stackSwap (pushKey (writeAction .pushDuplicate this)))
            (fun this => match property with
              | some _ => writeAction .getProperty this
              | none => writeAction .getMember this)
            (fun this => match property with
              | some _ => writeAction .setProperty this
              | none => writeAction .setMember this)
            precedence.canAssign st2

/-- `Compiler::member_access`: `[expr]` access with the index compiled
into its own buffer. -/
def memberAccess : Nat → Precedence → CState → Except Err CState
  | 0, _, _ => .error .outOfFuel
  | fuel + 1, precedence, st =>
    match nested (expression fuel) st with
    | .error e => .error e
    | .ok (name, st1) =>
      match st1.expect .RightSquareBrace "Expected \x27]\x27" with
      | .error e => .error e
      | .ok (_, st2) =>
        match st2.consume .LeftParen with
        | .error e => .error e
        | .ok (true, st3) =>
          match commaSeparatedRev (expression fuel) .RightParen fuel st3 with
          | .error e => .error e
          | .ok (count, st4) =>
            if count ≤ 2147483647 then
              let st5 := extendData name
                (writeAction .stackSwap (push (.int count) st4))
              if precedence.isConstruct then .ok (writeAction .newMethod st5)
              else .ok (writeAction .callMethod st5)
            else .error (.panic "TryFromIntError")
        | .ok (false, st3) =>
          if precedence.isDelete ∧ Precedence.lt st3.current.kind.precedence .Call then
            .ok (writeAction .delete (extendData name st3))
          else
            let st4 := extendData name st3
            access fuel
              (fun this => this)
              (fun this =>
                writeAction .stackSwap (writeAction .pushDuplicate (writeAction .stackSwap this)))
              (fun this => writeAction .getMember this)
              (fun this => writeAction .setMember this)
              precedence.canAssign st4

/-- `Compiler::construct`. -/
def construct : Nat → CState → Except Err CState
  | 0, _ => .error .outOfFuel
  | fuel + 1, st => expressionWithPrecedence fuel .Construct st

/-- `Compiler::delete`. -/
def deleteExpression : Nat → CState → Except Err CState
  | 0, _ => .error .outOfFuel
  | fuel + 1, st => expressionWithPrecedence fuel .Delete st

/-- `Compiler::unary`. -/
def unary : Nat → TokenKind → CState → Except Err CState
  | 0, _, _ => .error .outOfFuel
  | fuel + 1, tokenKind, st =>
    let st1 := match tokenKind with
      | .Minus => push (.int 0) st
      | .Tilda => push (.double 4294967295) st
      | _ => st
    match expressionWithPrecedence fuel .Unary st1 with
    | .error e => .error e
    | .ok st2 =>
      match tokenKind with
      | .Plus => .ok (writeAction .toNumber st2)
      | .Minus => .ok (writeAction .subtract st2)
      | .Tilda => .ok (writeAction .bitXor st2)
      | .Bang => .ok (writeAction .not st2)
      | .Throw => .ok (writeAction .throw st2)
      | .Typeof => .ok (writeAction .typeOf st2)
      | _ => .error (.panic "entered unreachable code")

/-- `Compiler::binary`: compute the right-hand precedence, compile the
right operand, then emit the operator's opcode(s). The final `match`
mirrors the source exactly: it has no arm for `BangEqual`, so `!=`
reaches the `unreachable!()` catch-all. -/
def binary : Nat → Token → CState → Except Err CState
  | 0, _, _ => .error .outOfFuel
  | fuel + 1, token, st =>
    match
      (match token.kind.precedence with
        | .None | .Construct | .Delete | .Path | .Primary =>
          .error (.panic "entered unreachable code")
        | .Assignment => .ok .BitwiseOr
        | .BitwiseOr => .ok .BitwiseXor
        | .BitwiseXor => .ok .BitwiseAnd
        | .BitwiseAnd => .ok .Equality
        | .Equality => .ok .Comparison
        | .Comparison => .ok .BitwiseShift
        | .BitwiseShift => .ok .Term
        | .Term => .ok .Factor
        | .Factor => .ok .Unary
        | .Unary | .Call =>
          .error (.compileError "Expected binary operator" token.line token.column)
        : Except Err Precedence) with
    | .error e => .error e
    | .ok nextPrecedence =>
      match expressionWithPrecedence fuel nextPrecedence st with
      | .error e => .error e
      | .ok st1 =>
        match token.kind with
        | .Ampersand => .ok (writeAction .bitAnd st1)
        | .Bar => .ok (writeAction .bitOr st1)
        | .Caret => .ok (writeAction .bitXor st1)
        | .Percent => .ok (writeAction .modulo st1)
        | .Plus => .ok (writeAction .add2 st1)
        | .Minus => .ok (writeAction .subtract st1)
        | .Slash => .ok (writeAction .divide st1)
        | .Star => .ok (writeAction .multiply st1)
        | .DoubleEqual => .ok (writeAction .equals2 st1)
        | .TripleEqual => .ok (writeAction .strictEquals st1)
        | .Greater => .ok (writeAction .greater st1)
        | .DoubleGreater => .ok (writeAction .bitRShift st1)
        | .TripleGreater => .ok (writeAction .bitURShift st1)
        | .GreaterEqual => .ok (writeAction .not (writeAction .less st1))
        | .Less => .ok (writeAction .less st1)
        | .DoubleLess => .ok (writeAction .bitLShift st1)
        | .LessEqual => .ok (writeAction .not (writeAction .greater st1))
        | .InstanceOf => .ok (writeAction .instanceOfA st1)
        | _ => .error (.panic "entered unreachable code")

/-- `Compiler::builtin`: `(`, exact-arity argument list, opcode. -/
def builtin : Nat → Action → Nat → CState → Except Err CState
  | 0, _, _, _ => .error .outOfFuel
  | fuel + 1, action, arity, st =>
    match st.expect .LeftParen "Expected \x27(\x27" with
    | .error e => .error e
    | .ok (_, st1) =>
      match commaSeparated (expression fuel) .RightParen (some arity) fuel st1 with
      | .error e => .error e
      | .ok (_, st2) => .ok (writeAction action st2)

/-- `Compiler::function_body`: parameter list, `{`, block compiled into a
fresh buffer, then one `DefineFunction` action embedding it. -/
def functionBody : Nat → List Char → CState → Except Err CState
  | 0, _, _ => .error .outOfFuel
  | fuel + 1, name, st =>
    match st.expect .LeftParen "Expected \x27(\x27" with
    | .error e => .error e
    | .ok (_, st1) =>
      match paramsLoop fuel [] st1 with
      | .error e => .error e
      | .ok (params, st2) =>
        match st2.expect .LeftBrace "Expected \x27\x7b\x27" with
        | .error e => .error e
        | .ok (_, st3) =>
          match nested (blockStatement fuel) st3 with
          | .error e => .error e
          | .ok (actions, st4) =>
            .ok (writeAction (.defineFunction name params actions.acts actions.len) st4)

/-- `Compiler::function_declaration`. -/
def functionDeclaration : Nat → CState → Except Err CState
  | 0, _ => .error .outOfFuel
  | fuel + 1, st =>
    match st.expect .Identifier "Expected function name" with
    | .error e => .error e
    | .ok (name, st1) => functionBody fuel name.source st1

/-- `Compiler::function_expression` (must be anonymous). -/
def functionExpression : Nat → CState → Except Err CState
  | 0, _ => .error .outOfFuel
  | fuel + 1, st =>
    if st.current.kind = .Identifier then
      .error (.compileError "Function expression must be anonymous"
        st.current.line st.current.column)
    else functionBody fuel [] st

/-- `Compiler::trace_statement`. -/
def traceStatement : Nat → CState → Except Err CState
  | 0, _ => .error .outOfFuel
  | fuel + 1, st =>
    match st.expect .LeftParen "Expected \x27(\x27 before expression" with
    | .error e => .error e
    | .ok (_, st1) =>
      match expression fuel st1 with
      | .error e => .error e
      | .ok st2 =>
        match st2.expect .RightParen "Expected \x27)\x27 after expression" with
        | .error e => .error e
        | .ok (_, st3) =>
          match st3.expect .Semicolon "Expected \x27;\x27 after statement" with
          | .error e => .error e
          | .ok (_, st4) => .ok (writeAction .trace st4)

/-- `Compiler::variable_declaration` (`var IDENT [= expr] ;`). -/
def variableDeclaration : Nat → CState → Except Err CState
  | 0, _ => .error .outOfFuel
  | fuel + 1, st =>
    match st.expect .Identifier "Expected variable name" with
    | .error e => .error e
    | .ok (v, st1) =>
      let st2 := push (.str v.source) st1
      match st2.consume .Equal with
      | .error e => .error e
      | .ok (initialized, st3) =>
        match
          (if initialized then
            match expression fuel st3 with
            | .error e => .error e
            | .ok st4 => .ok (writeAction .defineLocal st4)
          else .ok (writeAction .defineLocal2 st3) : Except Err CState) with
        | .error e => .error e
        | .ok st5 =>
          match st5.expect .Semicolon "Expected \x27;\x27 after statement" with
          | .error e => .error e
          | .ok (_, st6) => .ok st6

/-- `Compiler::expression_statement` (expression, `;`, `Pop`). -/
def expressionStatement : Nat → CState → Except Err CState
  | 0, _ => .error .outOfFuel
  | fuel + 1, st =>
    match expression fuel st with
    | .error e => .error e
    | .ok st1 =>
      match st1.expect .Semicolon "Expected \x27;\x27 after statement" with
      | .error e => .error e
      | .ok (_, st2) => .ok (writeAction .pop st2)

/-- The declaration loop of `Compiler::block_statement`. -/
def blockLoop : Nat → CState → Except Err CState
  | 0, _ => .error .outOfFuel
  | fuel + 1, st =>
    if st.current.kind = .RightBrace ∨ st.current.kind = .Eof then .ok st
    else
      match declaration fuel st with
      | .error e => .error e
      | .ok st1 => blockLoop fuel st1

/-- `Compiler::block_statement`. -/
def blockStatement : Nat → CState → Except Err CState
  | 0, _ => .error .outOfFuel
  | fuel + 1, st =>
    match blockLoop fuel st with
    | .error e => .error e
    | .ok st1 =>
      match st1.expect .RightBrace "Expected \x27\x7d\x27 after block" with
      | .error e => .error e
      | .ok (_, st2) => .ok st2

/-- `Compiler::if_statement`. Faithful to the source: the `If` offset is
the then-branch length alone, and the `Jump` over the else-branch is
written to the outer buffer after the then-branch was already spliced. -/
def ifStatement : Nat → CState → Except Err CState
  | 0, _ => .error .outOfFuel
  | fuel + 1, st =>
    match st.expect .LeftParen "Expected \x27(\x27 after if" with
    | .error e => .error e
    | .ok (_, st1) =>
      match expression fuel st1 with
      | .error e => .error e
      | .ok st2 =>
        match st2.expect .RightParen "Expected \x27)\x27 after condition" with
        | .error e => .error e
        | .ok (_, st3) =>
          let st4 := writeAction .not st3
          match nested (statement fuel) st4 with
          | .error e => .error e
          | .ok (ifBody, st5) =>
            if ifBody.len ≤ 32767 then
              let st6 := extendData ifBody (writeAction (.ifA ifBody.len) st5)
              match st6.consume .Else with
              | .error e => .error e
              | .ok (true, st7) =>
                match nested (statement fuel) st7 with
                | .error e => .error e
                | .ok (elseBody, st8) =>
                  if elseBody.len ≤ 32767 then
                    .ok (extendData elseBody (writeAction (.jump elseBody.len) st8))
                  else .error (.panic "TryFromIntError")
              | .ok (false, st7) => .ok st7
            else .error (.panic "TryFromIntError")

/-- `Compiler::while_statement` (`JUMP_SIZE = 5`). -/
def whileStatement : Nat → CState → Except Err CState
  | 0, _ => .error .outOfFuel
  | fuel + 1, st =>
    match st.expect .LeftParen "Expected \x27(\x27 after while" with
    | .error e => .error e
    | .ok (_, st1) =>
      match nested (expression fuel) st1 with
      | .error e => .error e
      | .ok (condition, st2) =>
        match st2.expect .RightParen "Expected \x27)\x27 after condition" with
        | .error e => .error e
        | .ok (_, st3) =>
          match nested (statement fuel) st3 with
          | .error e => .error e
          | .ok (body, st4) =>
            let offset := body.len + 5 * 2
            let st5 := extendData condition (writeAction .not st4)
            if offset ≤ 32767 then
              let st6 := extendData body (writeAction (.ifA offset) st5)
              if condition.len + offset ≤ 32767 then
                .ok (writeAction (.jump (-(Int.ofNat (condition.len + offset)))) st6)
              else .error (.panic "TryFromIntError")
            else .error (.panic "TryFromIntError")

/-- `Compiler::try_statement`. -/
def tryStatement : Nat → CState → Except Err CState
  | 0, _ => .error .outOfFuel
  | fuel + 1, st =>
    match st.expect .LeftBrace "Expected \x27\x7b\x27" with
    | .error e => .error e
    | .ok (_, st1) =>
      match nested (blockStatement fuel) st1 with
      | .error e => .error e
      | .ok (tryBody, st2) =>
        match
          (match st2.consume .Catch with
            | .error e => .error e
            | .ok (true, st3) =>
              match st3.expect .LeftParen "Expected \x27(\x27" with
              | .error e => .error e
              | .ok (_, st4) =>
                match st4.expect .Identifier "Expected catch variable" with
                | .error e => .error e
                | .ok (catchVar, st5) =>
                  match st5.expect .RightParen "Expected \x27)\x27" with
                  | .error e => .error e
                  | .ok (_, st6) =>
                    match st6.expect .LeftBrace "Expected \x27\x7b\x27" with
                    | .error e => .error e
                    | .ok (_, st7) =>
                      match nested (blockStatement fuel) st7 with
                      | .error e => .error e
                      | .ok (catchBody, st8) => .ok (some (catchVar, catchBody), st8)
            | .ok (false, st3) =>
              .ok (none, st3) : Except Err (Option (Token × Buf) × CState)) with
        | .error e => .error e
        | .ok (catchOpt, st9) =>
          match
            (match st9.consume .Finally with
              | .error e => .error e
              | .ok (true, st10) =>
                match st10.expect .LeftBrace "Expected \x27\x7b\x27" with
                | .error e => .error e
                | .ok (_, st11) =>
                  match nested (blockStatement fuel) st11 with
                  | .error e => .error e
                  | .ok (finallyBody, st12) => .ok (some finallyBody, st12)
              | .ok (false, st10) =>
                .ok (none, st10) : Except Err (Option Buf × CState)) with
          | .error e => .error e
          | .ok (finallyOpt, st13) =>
            let catchPart := catchOpt.map (fun vb =>
              let catchVar := match registerIndex vb.1.source with
                | some r => CatchVar.register r
                | none => CatchVar.var vb.1.source
              (catchVar, vb.2.acts, vb.2.len))
            let finallyPart := finallyOpt.map (fun b => (b.acts, b.len))
            .ok (writeAction (.tryA tryBody.acts tryBody.len catchPart finallyPart) st13)

/-- `Compiler::statement`. -/
def statement : Nat → CState → Except Err CState
  | 0, _ => .error .outOfFuel
  | fuel + 1, st =>
    match st.consume .LeftBrace with
    | .error e => .error e
    | .ok (true, st1) => blockStatement fuel st1
    | .ok (false, st1) =>
      match st1.consume .If with
      | .error e => .error e
      | .ok (true, st2) => ifStatement fuel st2
      | .ok (false, st2) =>
        match st2.consume .While with
        | .error e => .error e
        | .ok (true, st3) => whileStatement fuel st3
        | .ok (false, st3) =>
          match st3.consume .Try with
          | .error e => .error e
          | .ok (true, st4) => tryStatement fuel st4
          | .ok (false, st4) =>
            match st4.consume .Trace with
            | .error e => .error e
            | .ok (true, st5) => traceStatement fuel st5
            | .ok (false, st5) => expressionStatement fuel st5

/-- `Compiler::declaration`. -/
def declaration : Nat → CState → Except Err CState
  | 0, _ => .error .outOfFuel
  | fuel + 1, st =>
    match st.consume .Var with
    | .error e => .error e
    | .ok (true, st1) => variableDeclaration fuel st1
    | .ok (false, st1) =>
      match st1.consume .Function with
      | .error e => .error e
      | .ok (true, st2) => functionDeclaration fuel st2
      | .ok (false, st2) => statement fuel st2

/-- The declaration loop of `Compiler::compile`. -/
def compileLoop : Nat → CState → Except Err CState
  | 0, _ => .error .outOfFuel
  | fuel + 1, st =>
    if st.current.kind = .Eof then .ok st
    else
      match declaration fuel st with
      | .error e => .error e
      | .ok st1 => compileLoop fuel st1

end

/-- `Compiler::compile`: prime the lookahead, then compile declarations
until EOF. -/
def compileTop (fuel : Nat) (st : CState) : Except Err CState :=
  match st.readToken with
  | .error e => .error e
  | .ok (_, st1) => compileLoop fuel st1

/-- Compile a source text to its action buffer (the `action_data` that
`compile` hands to the SWF wrapper), with generous fuel. -/
def compileSrc (cs : List Char) : Except Err Buf :=
  let st : CState :=
    { scanner := Scanner.new cs, current := Token.INVALID, buffer := Buf.empty }
  match compileTop (8 * cs.length + 64) st with
  | .error e => .error e
  | .ok st1 => .ok st1.buffer

/-- The emitted action sequence of a compilation. -/
def compileActs (cs : List Char) : Except Err (List Action) :=
  match compileSrc cs with
  | .error e => .error e
  | .ok b => .ok b.acts

/-- The kind of the first token scanned from a source text. -/
def firstTokenKind (cs : List Char) : Except Err TokenKind :=
  match scanRead (Scanner.new cs) with
  | .error e => .error e
  | .ok (t, _) => .ok t.kind

/-- C1. The claim states that `a != b;` compiles the two operands and
then emits `Equals2` followed by `Not`. In the source, `BangEqual` has
`Equality` precedence and is dispatched to `Compiler::binary`, but the
opcode-emission `match` there has no `BangEqual` arm, so compilation
falls into the `_ => unreachable!()` catch-all and panics instead of
producing any output. -/
theorem c1_bang_equal_panics :
    compileActs "a != b;".toList = .error (.panic "entered unreachable code") := by
  simp [compileActs, compileSrc, compileTop, compileLoop, declaration, statement,
    expressionStatement, traceStatement, variableDeclaration, blockStatement, blockLoop,
    ifStatement, whileStatement, tryStatement, functionBody, functionDeclaration,
    functionExpression, paramsLoop, expression, expressionWithPrecedence, infixLoop,
    grouping, array, object, access, variableAccess, dot, memberAccess, construct,
    deleteExpression, unary, binary, builtin, prefixOp, commaSeparated, commaSepLoop,
    commaSeparatedRev, commaSepRevLoop, builtinLookup, propertyIndex, registerIndex,
    parseU8, parseI32, CState.readToken, CState.consume, CState.expect, writeAction,
    push, extendData, nested, scanRead, readTokenF, readChar, skipSpaces, skipSpacesGo,
    readNumberGo, readStringGo, readString, readIdentifier, readIdentifierGo, keywordKind,
    lineCommentGo, blockCommentGo, peekChar, twoChar, isWs, isDigit, identStart, identCont,
    Scanner.new, Token.INVALID, Buf.empty, TokenKind.precedence, TokenKind.isAssign,
    Precedence.toNat, Precedence.le, Precedence.lt, Precedence.canAssign,
    Precedence.isConstruct, Precedence.isDelete, asize, Value.vsize, firstTokenKind]

/-- C2. The claim states that for `if (e) s1 else s2` the `If` offset
equals the byte length of the then-branch including its trailing 5-byte
`Jump`. Evaluating the compiler on `if (x) trace(x); else trace(0);`
shows the emitted offset is 8 — exactly the then-branch
(`Push Str "x"; GetVariable; Trace`) alone, excluding the `Jump` —
because `if_statement` measures the then-buffer before the `Jump` is
written and splices the `Jump` after it. -/
theorem c2_if_else_offset_excludes_jump :
    compileActs "if (x) trace(x); else trace(0);".toList =
      .ok [.push (.str "x".toList), .getVariable, .not, .ifA 8,
        .push (.str "x".toList), .getVariable, .trace, .jump 9,
        .push (.int 0), .trace] ∧
    asize (.push (.str "x".toList)) + asize .getVariable + asize .trace = 8 := by
  refine ⟨?_, by simp [asize, Value.vsize]⟩
  simp [compileActs, compileSrc, compileTop, compileLoop, declaration, statement,
    expressionStatement, traceStatement, variableDeclaration, blockStatement, blockLoop,
    ifStatement, whileStatement, tryStatement, functionBody, functionDeclaration,
    functionExpression, paramsLoop, expression, expressionWithPrecedence, infixLoop,
    grouping, array, object, access, variableAccess, dot, memberAccess, construct,
    deleteExpression, unary, binary, builtin, prefixOp, commaSeparated, commaSepLoop,
    commaSeparatedRev, commaSepRevLoop, builtinLookup, propertyIndex, registerIndex,
    parseU8, parseI32, CState.readToken, CState.consume, CState.expect, writeAction,
    push, extendData, nested, scanRead, readTokenF, readChar, skipSpaces, skipSpacesGo,
    readNumberGo, readStringGo, readString, readIdentifier, readIdentifierGo, keywordKind,
    lineCommentGo, blockCommentGo, peekChar, twoChar, isWs, isDigit, identStart, identCont,
    Scanner.new, Token.INVALID, Buf.empty, TokenKind.precedence, TokenKind.isAssign,
    Precedence.toNat, Precedence.le, Precedence.lt, Precedence.canAssign,
    Precedence.isConstruct, Precedence.isDelete, asize, Value.vsize, firstTokenKind]

/-- C3. The claim states compilation never fails other than by returning
a `CompileError`, including for integer literals outside the 32-bit
signed range. Evaluating the compiler on `2147483648;` (one more than
`i32::MAX`) shows the `token.source.parse().unwrap()` in the `Number`
arm panics instead. -/
theorem c3_i32_overflow_panics :
    compileActs "2147483648;".toList = .error (.panic "unwrap on Err") := by
  simp [compileActs, compileSrc, compileTop, compileLoop, declaration, statement,
    expressionStatement, traceStatement, variableDeclaration, blockStatement, blockLoop,
    ifStatement, whileStatement, tryStatement, functionBody, functionDeclaration,
    functionExpression, paramsLoop, expression, expressionWithPrecedence, infixLoop,
    grouping, array, object, access, variableAccess, dot, memberAccess, construct,
    deleteExpression, unary, binary, builtin, prefixOp, commaSeparated, commaSepLoop,
    commaSeparatedRev, commaSepRevLoop, builtinLookup, propertyIndex, registerIndex,
    parseU8, parseI32, CState.readToken, CState.consume, CState.expect, writeAction,
    push, extendData, nested, scanRead, readTokenF, readChar, skipSpaces, skipSpacesGo,
    readNumberGo, readStringGo, readString, readIdentifier, readIdentifierGo, keywordKind,
    lineCommentGo, blockCommentGo, peekChar, twoChar, isWs, isDigit, identStart, identCont,
    Scanner.new, Token.INVALID, Buf.empty, TokenKind.precedence, TokenKind.isAssign,
    Precedence.toNat, Precedence.le, Precedence.lt, Precedence.canAssign,
    Precedence.isConstruct, Precedence.isDelete, asize, Value.vsize, firstTokenKind]

/-- C5 counterexample. The claim states a trailing comma in an object or
array literal fails with a compile error; in fact both
`var o = {a: 1,};` and `[10, 20,];` compile successfully (the
`comma_separated` loops re-check for the terminator after a consumed
comma and accept it). -/
theorem c5_trailing_comma_counterexample :
    compileActs "var o = \x7ba: 1,\x7d;".toList =
      .ok [.push (.str "o".toList), .push (.str "a".toList), .push (.int 1),
        .push (.int 1), .initObject, .defineLocal] ∧
    compileActs "[10, 20,];".toList =
      .ok [.push (.int 20), .push (.int 10), .push (.int 2), .initArray, .pop] := by
  constructor
  · simp [compileActs, compileSrc, compileTop, compileLoop, declaration, statement,
    expressionStatement, traceStatement, variableDeclaration, blockStatement, blockLoop,
    ifStatement, whileStatement, tryStatement, functionBody, functionDeclaration,
    functionExpression, paramsLoop, expression, expressionWithPrecedence, infixLoop,
    grouping, array, object, access, variableAccess, dot, memberAccess, construct,
    deleteExpression, unary, binary, builtin, prefixOp, commaSeparated, commaSepLoop,
    commaSeparatedRev, commaSepRevLoop, builtinLookup, propertyIndex, registerIndex,
    parseU8, parseI32, CState.readToken, CState.consume, CState.expect, writeAction,
    push, extendData, nested, scanRead, readTokenF, readChar, skipSpaces, skipSpacesGo,
    readNumberGo, readStringGo, readString, readIdentifier, readIdentifierGo, keywordKind,
    lineCommentGo, blockCommentGo, peekChar, twoChar, isWs, isDigit, identStart, identCont,
    Scanner.new, Token.INVALID, Buf.empty, TokenKind.precedence, TokenKind.isAssign,
    Precedence.toNat, Precedence.le, Precedence.lt, Precedence.canAssign,
    Precedence.isConstruct, Precedence.isDelete, asize, Value.vsize, firstTokenKind]
  · simp [compileActs, compileSrc, compileTop, compileLoop, declaration, statement,
    expressionStatement, traceStatement, variableDeclaration, blockStatement, blockLoop,
    ifStatement, whileStatement, tryStatement, functionBody, functionDeclaration,
    functionExpression, paramsLoop, expression, expressionWithPrecedence, infixLoop,
    grouping, array, object, access, variableAccess, dot, memberAccess, construct,
    deleteExpression, unary, binary, builtin, prefixOp, commaSeparated, commaSepLoop,
    commaSeparatedRev, commaSepRevLoop, builtinLookup, propertyIndex, registerIndex,
    parseU8, parseI32, CState.readToken, CState.consume, CState.expect, writeAction,
    push, extendData, nested, scanRead, readTokenF, readChar, skipSpaces, skipSpacesGo,
    readNumberGo, readStringGo, readString, readIdentifier, readIdentifierGo, keywordKind,
    lineCommentGo, blockCommentGo, peekChar, twoChar, isWs, isDigit, identStart, identCont,
    Scanner.new, Token.INVALID, Buf.empty, TokenKind.precedence, TokenKind.isAssign,
    Precedence.toNat, Precedence.le, Precedence.lt, Precedence.canAssign,
    Precedence.isConstruct, Precedence.isDelete, asize, Value.vsize, firstTokenKind]

/-- C6 counterexample. The claim states an unterminated string fails
with "Unclosed string" at the line and column of the opening quote. On
the source `"abc` the opening quote is at column 1, but the error is
reported at column 2: `read_string` captures the scanner position after
the quote has already been consumed. -/
theorem c6_unclosed_string_counterexample :
    scanRead (Scanner.new "\"abc".toList) =
      .error (.compileError "Unclosed string" 1 2) ∧
    Err.compileError "Unclosed string" 1 2 ≠ .compileError "Unclosed string" 1 1 := by
  refine ⟨?_, by decide⟩
  simp [compileActs, compileSrc, compileTop, compileLoop, declaration, statement,
    expressionStatement, traceStatement, variableDeclaration, blockStatement, blockLoop,
    ifStatement, whileStatement, tryStatement, functionBody, functionDeclaration,
    functionExpression, paramsLoop, expression, expressionWithPrecedence, infixLoop,
    grouping, array, object, access, variableAccess, dot, memberAccess, construct,
    deleteExpression, unary, binary, builtin, prefixOp, commaSeparated, commaSepLoop,
    commaSeparatedRev, commaSepRevLoop, builtinLookup, propertyIndex, registerIndex,
    parseU8, parseI32, CState.readToken, CState.consume, CState.expect, writeAction,
    push, extendData, nested, scanRead, readTokenF, readChar, skipSpaces, skipSpacesGo,
    readNumberGo, readStringGo, readString, readIdentifier, readIdentifierGo, keywordKind,
    lineCommentGo, blockCommentGo, peekChar, twoChar, isWs, isDigit, identStart, identCont,
    Scanner.new, Token.INVALID, Buf.empty, TokenKind.precedence, TokenKind.isAssign,
    Precedence.toNat, Precedence.le, Precedence.lt, Precedence.canAssign,
    Precedence.isConstruct, Precedence.isDelete, asize, Value.vsize, firstTokenKind]

/-- The `read_string` loop on input holding no closing quote always
reports "Unclosed string" at the line/column it was entered with. -/
theorem readStringGo_unclosed (q : Char) (line col : Nat) (r : List Char)
    (hnr : q ∉ r) :
    ∀ s : Scanner, readStringGo q line col r s =
      .error (.compileError "Unclosed string" line col) := by
  induction r with
  | nil => intro s; rfl
  | cons c r' ih =>
    intro s
    have hc : ¬(c = q) := fun he => hnr (he ▸ List.mem_cons_self c r')
    simp only [readStringGo, hc, if_false]
    exact ih (fun hm => hnr (List.mem_cons_of_mem _ hm)) _

/-- C6 amended. For any scanner state whose next character is an
unmatched quote, the token read fails with "Unclosed string" reported at
the quote's line and one column to its right (the position just after
the quote, which `read_string` captures after the quote was consumed). -/
theorem c6_unclosed_string_position
    (fuel : Nat) (s : Scanner) (q : Char) (r : List Char)
    (hq : q.toNat = 34 ∨ q.toNat = 39)
    (hrest : s.rest = q :: r)
    (hnr : q ∉ r) :
    readTokenF (fuel + 1) s =
      .error (.compileError "Unclosed string" s.line (s.column + 1)) := by
  have hws : isWs q = false := by simp only [isWs]; simp; omega
  have hskip : skipSpaces s = s := by
    unfold skipSpaces; rw [hrest]; simp [skipSpacesGo, hws]
  have hq' : (q.toNat = 34 ∨ q.toNat = 39) = True := eq_true hq
  simp only [readTokenF, hskip, readChar, hrest]
  simp only [readString, readStringGo_unclosed q _ _ r hnr,
    (show q.toNat ≠ 10 by omega), (show q.toNat ≠ 40 by omega),
    (show q.toNat ≠ 41 by omega), (show q.toNat ≠ 123 by omega),
    (show q.toNat ≠ 125 by omega), (show q.toNat ≠ 91 by omega),
    (show q.toNat ≠ 93 by omega), (show q.toNat ≠ 38 by omega),
    (show q.toNat ≠ 33 by omega), (show q.toNat ≠ 124 by omega),
    (show q.toNat ≠ 94 by omega), (show q.toNat ≠ 44 by omega),
    (show q.toNat ≠ 46 by omega), (show q.toNat ≠ 61 by omega),
    (show q.toNat ≠ 62 by omega), (show q.toNat ≠ 60 by omega),
    (show q.toNat ≠ 45 by omega), (show q.toNat ≠ 37 by omega),
    (show q.toNat ≠ 43 by omega), (show q.toNat ≠ 58 by omega),
    (show q.toNat ≠ 59 by omega), (show q.toNat ≠ 47 by omega),
    (show q.toNat ≠ 42 by omega), (show q.toNat ≠ 126 by omega),
    (show isDigit q = false by simp only [isDigit]; simp; omega), hq',
    if_true, if_false]
  simp

/-- Witness for C6 amended: the opening quote of `"ab` sits at 1:1 and
the failure is reported at 1:2. -/
theorem c6_unclosed_string_position_witness :
    readTokenF 4 (Scanner.new "\"ab".toList) =
      .error (.compileError "Unclosed string" 1 2) := by
  have h := c6_unclosed_string_position 3 (Scanner.new "\"ab".toList) '"' "ab".toList
    (by decide) rfl (by decide)
  simpa [Scanner.new] using h

/-- Running the `read_identifier` loop over a run of identifier
characters followed by a non-identifier character (or EOF) consumes
exactly the run. -/
theorem readIdentifierGo_run (t : List Char) :
    ∀ (rest' : List Char) (s : Scanner),
      s.rest = t ++ rest' →
      (∀ d ∈ t, identCont d = true) →
      (∀ d ∈ rest'.head?, identCont d = false) →
      readIdentifierGo (t ++ rest') s =
        { s with
            rest := rest', pos := s.pos + t.length,
            offset := if t.length = 0 then s.offset else s.pos + t.length - 1,
            column := s.column + t.length } := by
  induction t with
  | nil =>
    intro rest' s hrest _ hstop
    obtain ⟨src, rest, pos, off, line, col⟩ := s
    simp only [List.nil_append] at hrest
    subst hrest
    cases rest with
    | nil => simp [readIdentifierGo]
    | cons d ds =>
      have hd : identCont d = false := hstop d rfl
      simp [readIdentifierGo, hd]
  | cons c t' ih =>
    intro rest' s hrest ht hstop
    obtain ⟨src, rest, pos, off, line, col⟩ := s
    simp only at hrest
    subst hrest
    have hc : identCont c = true := ht c (List.mem_cons_self c t')
    have h10 : ¬(c.toNat = 10) := by
      have h := hc
      simp only [identCont, decide_eq_true_eq] at h
      omega
    simp only [List.cons_append, readIdentifierGo, hc, if_true, List.append_eq]
    rw [show (readChar ⟨src, c :: (t' ++ rest'), pos, off, line, col⟩).2 =
        ⟨src, t' ++ rest', pos + 1, pos, line, col + 1⟩ by simp [readChar, h10]]
    rw [ih rest' ⟨src, t' ++ rest', pos + 1, pos, line, col + 1⟩ rfl
      (fun d hd => ht d (List.mem_cons_of_mem _ hd)) hstop]
    congr 1 <;> (try simp only [List.length_cons]) <;>
      first
        | omega
        | (split <;> split <;> omega)

/-- Reading a token when exactly `;` remains yields the `Semicolon`
token at the current position. -/
theorem scanRead_semicolon (src : List Char) (p o l col : Nat)
    (hdrop : src.drop p = [';'])
    (hlen : p + 1 ≤ src.length) :
    scanRead ⟨src, [';'], p, o, l, col⟩ =
      .ok (⟨.Semicolon, [';'], l, col⟩, ⟨src, [], p + 1, p, l, col + 1⟩) := by
  simp [scanRead, readTokenF, skipSpaces, skipSpacesGo, readChar, isWs, isDigit,
    identStart, peekChar, hdrop, Nat.min_eq_left hlen]

/-- Reading a token at EOF yields the `Eof` token at the current
position with an empty lexeme. -/
theorem scanRead_eof (src : List Char) (p o l col : Nat)
    (hp : src.length ≤ p) :
    scanRead ⟨src, [], p, o, l, col⟩ =
      .ok (⟨.Eof, [], l, col⟩, ⟨src, [], p, p, l, col⟩) := by
  have hdrop : src.drop p = [] := List.drop_eq_nil_of_le hp
  simp [scanRead, readTokenF, skipSpaces, skipSpacesGo, readChar, hdrop]

/-- First token of `x.IDENT;`: the identifier `x`. -/
theorem scanRead_x (c : Char) (t : List Char) :
    scanRead (Scanner.new ('x' :: '.' :: ((c :: t) ++ [';']))) =
      .ok (⟨.Identifier, ['x'], 1, 1⟩,
        ⟨'x' :: '.' :: ((c :: t) ++ [';']), '.' :: ((c :: t) ++ [';']), 1, 0, 1, 2⟩) := by
  simp [scanRead, Scanner.new, readTokenF, skipSpaces, skipSpacesGo, readChar, isWs,
    isDigit, identStart, identCont, peekChar, readIdentifier, readIdentifierGo,
    keywordKind, (show ∀ n : Nat, min 1 (n + 4) = 1 from fun n => by omega)]

/-- Second token of `x.IDENT;`: the dot. -/
theorem scanRead_dot (c : Char) (t : List Char) :
    scanRead ⟨'x' :: '.' :: ((c :: t) ++ [';']), '.' :: ((c :: t) ++ [';']), 1, 0, 1, 2⟩ =
      .ok (⟨.Dot, ['.'], 1, 2⟩,
        ⟨'x' :: '.' :: ((c :: t) ++ [';']), (c :: t) ++ [';'], 2, 1, 1, 3⟩) := by
  simp [scanRead, readTokenF, skipSpaces, skipSpacesGo, readChar, isWs, isDigit,
    identStart, peekChar,
    (show ∀ n : Nat, min 2 (n + 4) = 2 from fun n => by omega)]

set_option maxHeartbeats 1000000 in
/-- Third token of `x.IDENT;`: the identifier itself, scanned by the
identifier loop and classified through the keyword table. -/
theorem scanRead_ident (c : Char) (t : List Char)
    (hc : identStart c = true) (ht : ∀ d ∈ t, identCont d = true) :
    scanRead ⟨'x' :: '.' :: ((c :: t) ++ [';']), (c :: t) ++ [';'], 2, 1, 1, 3⟩ =
      .ok (⟨keywordKind (c :: t), c :: t, 1, 3⟩,
        ⟨'x' :: '.' :: ((c :: t) ++ [';']), [';'], t.length + 3, t.length + 2, 1,
          t.length + 4⟩) := by
  have hcp : (65 ≤ c.toNat ∧ c.toNat ≤ 90) ∨ (97 ≤ c.toNat ∧ c.toNat ≤ 122) ∨
      c.toNat = 95 ∨ c.toNat = 36 := by
    have h := hc
    simp only [identStart, decide_eq_true_eq] at h
    exact h
  have hws : isWs c = false := by simp only [isWs]; simp; omega
  have h10 : ¬(c.toNat = 10) := by omega
  have hrun := readIdentifierGo_run t [';']
    ⟨'x' :: '.' :: c :: (t ++ [';']), t ++ [';'], 3, 2, 1, 4⟩ rfl ht
    (by intro d hd; simp only [List.head?] at hd; simp at hd; subst hd; decide)
  simp only at hrun
  have htake : List.take (t.length + 1) (c :: (t ++ [';'])) = c :: t := by
    rw [show c :: (t ++ [';']) = (c :: t) ++ [';'] from rfl,
      show t.length + 1 = (c :: t).length by simp]
    exact List.take_left (c :: t) [';']
  simp only [scanRead, List.length_append, List.length_cons, List.length_nil,
    readTokenF, skipSpaces, skipSpacesGo, readChar, readString, readIdentifier,
    hws, Bool.false_eq_true, h10, hrun, htake, hc,
    (show c.toNat ≠ 40 by omega), (show c.toNat ≠ 41 by omega),
    (show c.toNat ≠ 123 by omega), (show c.toNat ≠ 125 by omega),
    (show c.toNat ≠ 91 by omega), (show c.toNat ≠ 93 by omega),
    (show c.toNat ≠ 38 by omega), (show c.toNat ≠ 33 by omega),
    (show c.toNat ≠ 124 by omega), (show c.toNat ≠ 94 by omega),
    (show c.toNat ≠ 44 by omega), (show c.toNat ≠ 46 by omega),
    (show c.toNat ≠ 61 by omega), (show c.toNat ≠ 62 by omega),
    (show c.toNat ≠ 60 by omega), (show c.toNat ≠ 45 by omega),
    (show c.toNat ≠ 37 by omega), (show c.toNat ≠ 43 by omega),
    (show c.toNat ≠ 58 by omega), (show c.toNat ≠ 59 by omega),
    (show c.toNat ≠ 47 by omega), (show c.toNat ≠ 42 by omega),
    (show c.toNat ≠ 126 by omega),
    (show isDigit c = false by simp only [isDigit]; simp; omega),
    (show (c.toNat = 34 ∨ c.toNat = 39) = False by simp; omega)]
  simp [hrun, htake, hc, h10,
    (show c.toNat ≠ 40 by omega), (show c.toNat ≠ 41 by omega),
    (show c.toNat ≠ 123 by omega), (show c.toNat ≠ 125 by omega),
    (show c.toNat ≠ 91 by omega), (show c.toNat ≠ 93 by omega),
    (show c.toNat ≠ 38 by omega), (show c.toNat ≠ 33 by omega),
    (show c.toNat ≠ 124 by omega), (show c.toNat ≠ 94 by omega),
    (show c.toNat ≠ 44 by omega), (show c.toNat ≠ 46 by omega),
    (show c.toNat ≠ 61 by omega), (show c.toNat ≠ 62 by omega),
    (show c.toNat ≠ 60 by omega), (show c.toNat ≠ 45 by omega),
    (show c.toNat ≠ 37 by omega), (show c.toNat ≠ 43 by omega),
    (show c.toNat ≠ 58 by omega), (show c.toNat ≠ 59 by omega),
    (show c.toNat ≠ 47 by omega), (show c.toNat ≠ 42 by omega),
    (show c.toNat ≠ 126 by omega),
    (show c.toNat ≠ 34 by omega), (show c.toNat ≠ 39 by omega),
    (show isDigit c = false by simp only [isDigit]; simp; omega),
    (show (if t.length = 0 then 2 else 3 + t.length - 1) = 2 + t.length from
      by split <;> omega)]
  have hidx : ((if t = [] then 2 else 2 + t.length) + 1) ⊓ (t.length + 1 + 1 + 1 + 1) - 2
      = t.length + 1 := by
    rcases t with _ | ⟨d, ds⟩
    · simp
    · simp; omega
  rw [hidx, htake]
  refine ⟨⟨rfl, rfl⟩, by omega, ?_, by omega⟩
  rcases t with _ | ⟨d, ds⟩
  · simp
  · simp; omega

/-- C7. The claim states a block comment ends at the first `*/`, so in
`/*x**/y;` the next token is `y`. In the source's comment loop, after a
`*` is read one more character is consumed and only `/` (or EOF) stops
the loop — a second `*` is swallowed without being re-examined — so in
`/*x**/y;` the `*/` is missed and the whole rest of the input is
consumed: the first token is `Eof` and the program compiles to an empty
action buffer. (With an odd star run, as in `/* x */y;`, the comment
does terminate and `y` is tokenised.) -/
theorem c7_block_comment_star_star_slash :
    firstTokenKind "/*x**/y;".toList = .ok .Eof ∧
    compileActs "/*x**/y;".toList = .ok [] ∧
    firstTokenKind "/* x */y;".toList = .ok .Identifier := by
  refine ⟨?_, ?_, ?_⟩
  · simp [compileActs, compileSrc, compileTop, compileLoop, declaration, statement,
    expressionStatement, traceStatement, variableDeclaration, blockStatement, blockLoop,
    ifStatement, whileStatement, tryStatement, functionBody, functionDeclaration,
    functionExpression, paramsLoop, expression, expressionWithPrecedence, infixLoop,
    grouping, array, object, access, variableAccess, dot, memberAccess, construct,
    deleteExpression, unary, binary, builtin, prefixOp, commaSeparated, commaSepLoop,
    commaSeparatedRev, commaSepRevLoop, builtinLookup, propertyIndex, registerIndex,
    parseU8, parseI32, CState.readToken, CState.consume, CState.expect, writeAction,
    push, extendData, nested, scanRead, readTokenF, readChar, skipSpaces, skipSpacesGo,
    readNumberGo, readStringGo, readString, readIdentifier, readIdentifierGo, keywordKind,
    lineCommentGo, blockCommentGo, peekChar, twoChar, isWs, isDigit, identStart, identCont,
    Scanner.new, Token.INVALID, Buf.empty, TokenKind.precedence, TokenKind.isAssign,
    Precedence.toNat, Precedence.le, Precedence.lt, Precedence.canAssign,
    Precedence.isConstruct, Precedence.isDelete, asize, Value.vsize, firstTokenKind]
  · simp [compileActs, compileSrc, compileTop, compileLoop, declaration, statement,
    expressionStatement, traceStatement, variableDeclaration, blockStatement, blockLoop,
    ifStatement, whileStatement, tryStatement, functionBody, functionDeclaration,
    functionExpression, paramsLoop, expression, expressionWithPrecedence, infixLoop,
    grouping, array, object, access, variableAccess, dot, memberAccess, construct,
    deleteExpression, unary, binary, builtin, prefixOp, commaSeparated, commaSepLoop,
    commaSeparatedRev, commaSepRevLoop, builtinLookup, propertyIndex, registerIndex,
    parseU8, parseI32, CState.readToken, CState.consume, CState.expect, writeAction,
    push, extendData, nested, scanRead, readTokenF, readChar, skipSpaces, skipSpacesGo,
    readNumberGo, readStringGo, readString, readIdentifier, readIdentifierGo, keywordKind,
    lineCommentGo, blockCommentGo, peekChar, twoChar, isWs, isDigit, identStart, identCont,
    Scanner.new, Token.INVALID, Buf.empty, TokenKind.precedence, TokenKind.isAssign,
    Precedence.toNat, Precedence.le, Precedence.lt, Precedence.canAssign,
    Precedence.isConstruct, Precedence.isDelete, asize, Value.vsize, firstTokenKind]
  · simp [compileActs, compileSrc, compileTop, compileLoop, declaration, statement,
    expressionStatement, traceStatement, variableDeclaration, blockStatement, blockLoop,
    ifStatement, whileStatement, tryStatement, functionBody, functionDeclaration,
    functionExpression, paramsLoop, expression, expressionWithPrecedence, infixLoop,
    grouping, array, object, access, variableAccess, dot, memberAccess, construct,
    deleteExpression, unary, binary, builtin, prefixOp, commaSeparated, commaSepLoop,
    commaSeparatedRev, commaSepRevLoop, builtinLookup, propertyIndex, registerIndex,
    parseU8, parseI32, CState.readToken, CState.consume, CState.expect, writeAction,
    push, extendData, nested, scanRead, readTokenF, readChar, skipSpaces, skipSpacesGo,
    readNumberGo, readStringGo, readString, readIdentifier, readIdentifierGo, keywordKind,
    lineCommentGo, blockCommentGo, peekChar, twoChar, isWs, isDigit, identStart, identCont,
    Scanner.new, Token.INVALID, Buf.empty, TokenKind.precedence, TokenKind.isAssign,
    Precedence.toNat, Precedence.le, Precedence.lt, Precedence.canAssign,
    Precedence.isConstruct, Precedence.isDelete, asize, Value.vsize, firstTokenKind]

/-- `read_token` hands back the previous lookahead and does not touch the
action buffer. -/
theorem readToken_ok {st : CState} {t : Token} {st' : CState}
    (h : st.readToken = .ok (t, st')) :
    t = st.current ∧ st'.buffer = st.buffer := by
  unfold CState.readToken at h
  cases hs : scanRead st.scanner with
  | error e => rw [hs] at h; exact absurd h (by simp)
  | ok p =>
    obtain ⟨next, sc⟩ := p
    rw [hs] at h
    simp only [Except.ok.injEq, Prod.mk.injEq] at h
    obtain ⟨h1, h2⟩ := h
    subst h1; subst h2
    exact ⟨rfl, rfl⟩

/-- `expect` does not touch the action buffer. -/
theorem expect_buffer {k : TokenKind} {m : String} {st : CState} {t : Token} {st' : CState}
    (h : CState.expect k m st = .ok (t, st')) : st'.buffer = st.buffer := by
  unfold CState.expect at h
  by_cases hk : st.current.kind = k
  · rw [if_pos hk] at h
    exact (readToken_ok h).2
  · rw [if_neg hk] at h
    exact absurd h (by simp)

/-- `nested` restores the caller's buffer. -/
theorem nested_buffer {f : CState → Except Err CState} {st : CState} {b : Buf} {st' : CState}
    (h : nested f st = .ok (b, st')) : st'.buffer = st.buffer := by
  unfold nested at h
  cases hf : f { st with buffer := Buf.empty } with
  | error e => rw [hf] at h; exact absurd h (by simp)
  | ok st1 =>
    rw [hf] at h
    simp only [Except.ok.injEq, Prod.mk.injEq] at h
    rw [← h.2]

/-- C4. `while ( e ) s` emits exactly: `Not`; the compiled condition
bytes; `If` with offset `body-length + 2 * JUMP_SIZE` (`JUMP_SIZE = 5`);
the compiled body bytes; and `Jump` with offset
`-(condition-length + body-length + 2 * JUMP_SIZE)` — quantified over any
successful sub-compilations of the condition and body and any offsets
within the 16-bit conversion range. -/
theorem c4_while_emits_layout
    (fuel : Nat) (st st1 st2 st3 st4 : CState) (t1 t2 : Token) (condition body : Buf)
    (h1 : CState.expect .LeftParen "Expected \x27(\x27 after while" st = .ok (t1, st1))
    (h2 : nested (expression fuel) st1 = .ok (condition, st2))
    (h3 : CState.expect .RightParen "Expected \x27)\x27 after condition" st2 = .ok (t2, st3))
    (h4 : nested (statement fuel) st3 = .ok (body, st4))
    (h5 : body.len + 5 * 2 ≤ 32767)
    (h6 : condition.len + (body.len + 5 * 2) ≤ 32767) :
    (whileStatement (fuel + 1) st).map (fun s => s.buffer.acts) =
      .ok (st.buffer.acts ++ [.not] ++ condition.acts ++
        [.ifA (Int.ofNat (body.len + 5 * 2))] ++ body.acts ++
        [.jump (-(Int.ofNat (condition.len + (body.len + 5 * 2))))]) := by
  have hb1 : st1.buffer = st.buffer := expect_buffer h1
  have hb2 : st2.buffer = st1.buffer := nested_buffer h2
  have hb3 : st3.buffer = st2.buffer := expect_buffer h3
  have hb4 : st4.buffer = st3.buffer := nested_buffer h4
  simp only [whileStatement, h1, h2, h3, h4, if_pos h5, if_pos h6]
  simp [writeAction, extendData, Except.map, hb1, hb2, hb3, hb4]

/-- Witness for C4: `while (x) trace(1);` immediately after the `while`
keyword was consumed. The condition compiles to 7 bytes and the body to
9 bytes, giving `If 19` and `Jump -26`. -/
theorem c4_while_emits_layout_witness :
    (whileStatement 101
      ⟨⟨"while (x) trace(1);".toList, "x) trace(1);".toList, 7, 6, 1, 8⟩,
        ⟨.LeftParen, "(".toList, 1, 7⟩, Buf.empty⟩).map (fun s => s.buffer.acts) =
      .ok [.not, .push (.str "x".toList), .getVariable, .ifA 19,
        .push (.int 1), .trace, .jump (-26)] := by
  have h := c4_while_emits_layout 100
    ⟨⟨"while (x) trace(1);".toList, "x) trace(1);".toList, 7, 6, 1, 8⟩,
      ⟨.LeftParen, "(".toList, 1, 7⟩, Buf.empty⟩
    ⟨⟨"while (x) trace(1);".toList, ") trace(1);".toList, 8, 7, 1, 9⟩,
      ⟨.Identifier, "x".toList, 1, 8⟩, Buf.empty⟩
    ⟨⟨"while (x) trace(1);".toList, " trace(1);".toList, 9, 8, 1, 10⟩,
      ⟨.RightParen, ")".toList, 1, 9⟩, Buf.empty⟩
    ⟨⟨"while (x) trace(1);".toList, "(1);".toList, 15, 14, 1, 16⟩,
      ⟨.Trace, "trace".toList, 1, 11⟩, Buf.empty⟩
    ⟨⟨"while (x) trace(1);".toList, [], 19, 19, 1, 20⟩, ⟨.Eof, [], 1, 20⟩, Buf.empty⟩
    ⟨.LeftParen, "(".toList, 1, 7⟩ ⟨.RightParen, ")".toList, 1, 9⟩
    ⟨[.push (.str "x".toList), .getVariable], 7⟩ ⟨[.push (.int 1), .trace], 9⟩
    (by simp [CState.expect, CState.readToken, scanRead, readTokenF, readChar, skipSpaces,
      skipSpacesGo, readNumberGo, readIdentifier, readIdentifierGo, keywordKind, peekChar,
      twoChar, isWs, isDigit, identStart, identCont])
    (by simp [nested, expression, expressionWithPrecedence, infixLoop, variableAccess, access,
      registerIndex, parseU8, builtinLookup, CState.readToken, CState.consume, CState.expect,
      writeAction, push, Buf.empty, scanRead, readTokenF, readChar, skipSpaces, skipSpacesGo,
      readNumberGo, readIdentifier, readIdentifierGo, keywordKind, peekChar, twoChar, isWs,
      isDigit, identStart, identCont, TokenKind.precedence, TokenKind.isAssign,
      Precedence.toNat, Precedence.le, Precedence.lt, Precedence.canAssign,
      Precedence.isConstruct, Precedence.isDelete, asize, Value.vsize])
    (by simp [CState.expect, CState.readToken, scanRead, readTokenF, readChar, skipSpaces,
      skipSpacesGo, readNumberGo, readIdentifier, readIdentifierGo, keywordKind, peekChar,
      twoChar, isWs, isDigit, identStart, identCont])
    (by simp [nested, statement, traceStatement, expression, expressionWithPrecedence,
      infixLoop, parseI32, CState.readToken, CState.consume, CState.expect, writeAction,
      push, Buf.empty, scanRead, readTokenF, readChar, skipSpaces, skipSpacesGo,
      readNumberGo, readIdentifier, readIdentifierGo, keywordKind, peekChar, twoChar, isWs,
      isDigit, identStart, identCont, TokenKind.precedence, TokenKind.isAssign,
      Precedence.toNat, Precedence.le, Precedence.lt, Precedence.canAssign,
      Precedence.isConstruct, Precedence.isDelete, asize, Value.vsize])
    (by norm_num) (by norm_num)
  simpa [Buf.empty] using h

/-- C5 amended. The loop of `comma_separated`/`comma_separated_rev`
accepts a trailing comma: whenever control returns to the loop head —
in particular right after a comma was consumed — and the lookahead is
the closing delimiter, the loop terminates successfully with the items
parsed so far (no arity bound here, as for object and array literals). -/
theorem c5_trailing_comma_accepted
    (f : CState → Except Err CState) (term : TokenKind) (count fuel : Nat)
    (st : CState) (tok : Token) (st' : CState)
    (hterm : st.current.kind = term)
    (hread : st.readToken = .ok (tok, st')) :
    commaSepLoop f term none (fuel + 1) count st = .ok (count, tok, st') := by
  simp [commaSepLoop, hterm, hread]

/-- Witness for C5: with the lookahead already at `]` after three items,
the loop accepts and returns the count 3. -/
theorem c5_trailing_comma_accepted_witness :
    commaSepLoop (fun s => .ok s) .RightSquareBrace none 5 3
      ⟨Scanner.new [], ⟨.RightSquareBrace, "]".toList, 1, 1⟩, Buf.empty⟩ =
      .ok (3, ⟨.RightSquareBrace, "]".toList, 1, 1⟩,
        ⟨⟨[], [], 0, 0, 1, 1⟩, ⟨.Eof, [], 1, 1⟩, Buf.empty⟩) := by
  exact c5_trailing_comma_accepted (fun s => .ok s) .RightSquareBrace 3 4
    ⟨Scanner.new [], ⟨.RightSquareBrace, "]".toList, 1, 1⟩, Buf.empty⟩
    ⟨.RightSquareBrace, "]".toList, 1, 1⟩
    ⟨⟨[], [], 0, 0, 1, 1⟩, ⟨.Eof, [], 1, 1⟩, Buf.empty⟩
    rfl
    (by simp [CState.readToken, scanRead, readTokenF, readChar, skipSpaces, skipSpacesGo,
      Scanner.new])

/-- C8 amended: arity enforcement as the code implements it.
(i) With N = `a` expected arguments, the first excess argument (reached
with `count ≥ a` items already parsed and a non-terminator lookahead)
fails at that token's position naming the expected count and `count + 1`
— the count including only the first excess argument, not the full
actual count.
(ii) If the loop consumed the terminator after `count < a` items, the
failure names the expected count and the actual count, at the position
of the consumed `)`.
(iii) On success the builtin's opcode is emitted directly after whatever
the argument list emitted (arguments are compiled in source order by
`comma_separated`, with no reordering). -/
theorem c8_arity_enforcement :
    (∀ (f : CState → Except Err CState) (term : TokenKind) (a fuel count : Nat) (st : CState),
      st.current.kind ≠ term → a ≤ count →
      commaSepLoop f term (some a) (fuel + 1) count st =
        .error (.compileError
          ("Expected " ++ toString a ++ " argument(s), got " ++ toString (count + 1))
          st.current.line st.current.column)) ∧
    (∀ (f : CState → Except Err CState) (term : TokenKind) (a fuel count : Nat)
        (st : CState) (tok : Token) (st' : CState),
      commaSepLoop f term (some a) fuel 0 st = .ok (count, tok, st') → count < a →
      commaSeparated f term (some a) fuel st =
        .error (.compileError
          ("Expected " ++ toString a ++ " argument(s), got " ++ toString count)
          tok.line tok.column)) ∧
    (∀ (op : Action) (a fuel : Nat) (st : CState) (t : Token) (st1 : CState)
        (n : Nat) (st2 : CState),
      CState.expect .LeftParen "Expected \x27(\x27" st = .ok (t, st1) →
      commaSeparated (expression fuel) .RightParen (some a) fuel st1 = .ok (n, st2) →
      builtin (fuel + 1) op a st = .ok (writeAction op st2)) := by
  refine ⟨?_, ?_, ?_⟩
  · intro f term a fuel count st hne ha
    simp [commaSepLoop, hne, Nat.lt_succ_iff, ha]
  · intro f term a fuel count st tok st' hloop hlt
    simp [commaSeparated, hloop, hlt]
  · intro op a fuel st t st1 n st2 h1 h2
    simp [builtin, h1, h2]

/-- Witness for C8: arity 1 with one argument already parsed and a
`Number` lookahead at 1:7 fails there with "got 2". -/
theorem c8_arity_enforcement_witness :
    commaSepLoop (fun s => .ok s) .RightParen (some 1) 5 1
      ⟨Scanner.new [], ⟨.Number, "2".toList, 1, 7⟩, Buf.empty⟩ =
      .error (.compileError "Expected 1 argument(s), got 2" 1 7) := by
  have h := c8_arity_enforcement.1 (fun s => .ok s) .RightParen 1 4 1
    ⟨Scanner.new [], ⟨.Number, "2".toList, 1, 7⟩, Buf.empty⟩
    (by decide) (by decide)
  rw [h]
  rfl

/-- C10. Register access at the `variable_access` level.
(i) A pure read of an identifier with `register_index` = N (no call,
assignment, increment or decrement follows, and not under `delete`)
emits exactly one `Push Register(N)` — in particular no `GetVariable` —
and changes nothing else.
(ii) `register<N> = expr` consumes the `=`, compiles `expr` (into an
unchanged buffer: no name string is pushed for the register), and emits
`StoreRegister(N)` as the final action. -/
theorem c10_register_access :
    (∀ (fuel : Nat) (name : List Char) (r : Nat) (precedence : Precedence) (st : CState),
      registerIndex name = some r →
      precedence.isDelete = false →
      st.current.kind ≠ .LeftParen →
      st.current.kind.isAssign = false →
      st.current.kind ≠ .DoublePlus →
      st.current.kind ≠ .DoubleMinus →
      variableAccess (fuel + 2) name precedence st =
        .ok { st with buffer :=
          ⟨st.buffer.acts ++ [.push (.register r)], st.buffer.len + 5⟩ }) ∧
    (∀ (fuel : Nat) (name : List Char) (r : Nat) (precedence : Precedence)
        (st : CState) (tok : Token) (st1 st2 : CState),
      registerIndex name = some r →
      precedence.isDelete = false →
      precedence.canAssign = true →
      st.current.kind = .Equal →
      st.readToken = .ok (tok, st1) →
      expression fuel st1 = .ok st2 →
      st1.buffer = st.buffer ∧
      variableAccess (fuel + 2) name precedence st =
        .ok { st2 with buffer :=
          ⟨st2.buffer.acts ++ [.storeRegister r], st2.buffer.len + 4⟩ }) := by
  constructor
  · intro fuel name r precedence st hreg hdel hlp hassign hpp hmm
    simp [variableAccess, CState.consume, hreg, hdel, hlp, access, hassign, hpp, hmm,
      push, writeAction, asize, Value.vsize]
  · intro fuel name r precedence st tok st1 st2 hreg hdel hca hcur hread hexpr
    obtain ⟨htok, hbuf⟩ := readToken_ok hread
    refine ⟨hbuf, ?_⟩
    have hlp : st.current.kind ≠ .LeftParen := by rw [hcur]; decide
    have hassign : st.current.kind.isAssign = true := by rw [hcur]; decide
    simp [variableAccess, CState.consume, hreg, hdel, hlp, access, hca, hassign, hread,
      htok, hcur, hexpr, push, writeAction, asize, Value.vsize, TokenKind.isAssign]

/-- Witness for C10 (assignment part): `register5 = 7` with the `=` as
lookahead compiles `7` and ends with `StoreRegister 5`; the buffer holds
exactly `Push Int 7; StoreRegister 5`. -/
theorem c10_register_access_witness :
    variableAccess 12 "register5".toList .Assignment
      ⟨Scanner.new "7;".toList, ⟨.Equal, "=".toList, 1, 11⟩, Buf.empty⟩ =
      .ok ⟨⟨"7;".toList, [], 2, 1, 1, 3⟩, ⟨.Semicolon, ";".toList, 1, 2⟩,
        ⟨[.push (.int 7), .storeRegister 5], 12⟩⟩ := by
  have h := (c10_register_access.2 10 "register5".toList 5 .Assignment
    ⟨Scanner.new "7;".toList, ⟨.Equal, "=".toList, 1, 11⟩, Buf.empty⟩
    ⟨.Equal, "=".toList, 1, 11⟩
    ⟨⟨"7;".toList, [';'], 1, 0, 1, 2⟩, ⟨.Number, "7".toList, 1, 1⟩, Buf.empty⟩
    ⟨⟨"7;".toList, [], 2, 1, 1, 3⟩, ⟨.Semicolon, ";".toList, 1, 2⟩, ⟨[.push (.int 7)], 8⟩⟩
    (by simp [registerIndex, parseU8, isDigit]) rfl rfl rfl
    (by simp [CState.readToken, scanRead, readTokenF, readChar, skipSpaces, skipSpacesGo,
      readNumberGo, isWs, isDigit, Scanner.new])
    (by simp [expression, expressionWithPrecedence, infixLoop, parseI32, isDigit,
      CState.readToken, CState.consume, CState.expect, writeAction, push, Buf.empty,
      scanRead, readTokenF, readChar, skipSpaces, skipSpacesGo, readNumberGo, isWs,
      identStart, identCont, keywordKind, readIdentifier, readIdentifierGo, peekChar,
      twoChar, TokenKind.precedence, TokenKind.isAssign, Precedence.toNat, Precedence.le,
      Precedence.lt, Precedence.canAssign, Precedence.isConstruct, Precedence.isDelete,
      asize, Value.vsize])).2
  simpa [Buf.empty] using h

/-- C8 counterexample. The claim states a builtin call with M arguments
against arity N fails with a diagnostic naming N and the actual count M.
For `chr(1,2,3)` (N = 1, M = 3) the error is raised already at the first
excess argument and names "got 2", not "got 3". -/
theorem c8_arity_message_counterexample :
    compileActs "chr(1,2,3);".toList =
      .error (.compileError "Expected 1 argument(s), got 2" 1 7) ∧
    "Expected 1 argument(s), got 2" ≠ "Expected 1 argument(s), got 3" := by
  refine ⟨?_, by decide⟩
  simp [compileActs, compileSrc, compileTop, compileLoop, declaration, statement,
    expressionStatement, traceStatement, variableDeclaration, blockStatement, blockLoop,
    ifStatement, whileStatement, tryStatement, functionBody, functionDeclaration,
    functionExpression, paramsLoop, expression, expressionWithPrecedence, infixLoop,
    grouping, array, object, access, variableAccess, dot, memberAccess, construct,
    deleteExpression, unary, binary, builtin, prefixOp, commaSeparated, commaSepLoop,
    commaSeparatedRev, commaSepRevLoop, builtinLookup, propertyIndex, registerIndex,
    parseU8, parseI32, CState.readToken, CState.consume, CState.expect, writeAction,
    push, extendData, nested, scanRead, readTokenF, readChar, skipSpaces, skipSpacesGo,
    readNumberGo, readStringGo, readString, readIdentifier, readIdentifierGo, keywordKind,
    lineCommentGo, blockCommentGo, peekChar, twoChar, isWs, isDigit, identStart, identCont,
    Scanner.new, Token.INVALID, Buf.empty, TokenKind.precedence, TokenKind.isAssign,
    Precedence.toNat, Precedence.le, Precedence.lt, Precedence.canAssign,
    Precedence.isConstruct, Precedence.isDelete, asize, Value.vsize, firstTokenKind]
  decide

theorem compileLoop_go (fuel : Nat) (st : CState) (h : st.current.kind ≠ .Eof) :
    compileLoop (fuel + 1) st =
      match declaration fuel st with
      | .error e => .error e
      | .ok st1 => compileLoop fuel st1 := by
  simp [compileLoop, h]

theorem compileLoop_eof (fuel : Nat) (st : CState) (h : st.current.kind = .Eof) :
    compileLoop (fuel + 1) st = .ok st := by
  simp [compileLoop, h]

theorem declaration_other (fuel : Nat) (st : CState)
    (h1 : st.current.kind ≠ .Var) (h2 : st.current.kind ≠ .Function) :
    declaration (fuel + 1) st = statement fuel st := by
  simp [declaration, CState.consume, h1, h2]

theorem statement_other (fuel : Nat) (st : CState)
    (h1 : st.current.kind ≠ .LeftBrace) (h2 : st.current.kind ≠ .If)
    (h3 : st.current.kind ≠ .While) (h4 : st.current.kind ≠ .Try)
    (h5 : st.current.kind ≠ .Trace) :
    statement (fuel + 1) st = expressionStatement fuel st := by
  simp [statement, CState.consume, h1, h2, h3, h4, h5]

theorem expressionStatement_run (fuel : Nat) (st : CState) :
    expressionStatement (fuel + 1) st =
      match expression fuel st with
      | .error e => .error e
      | .ok st1 =>
        match st1.expect .Semicolon "Expected \x27;\x27 after statement" with
        | .error e => .error e
        | .ok (_, st2) => .ok (writeAction .pop st2) := by
  simp [expressionStatement]

theorem expression_run (fuel : Nat) (st : CState) :
    expression (fuel + 1) st = expressionWithPrecedence fuel .Assignment st := by
  simp [expression]

theorem ewp_identifier (fuel : Nat) (precedence : Precedence) (st st1 : CState) (tok : Token)
    (hread : st.readToken = .ok (tok, st1))
    (hkind : tok.kind = .Identifier)
    (hbl : builtinLookup tok.source = none) :
    expressionWithPrecedence (fuel + 1) precedence st =
      match variableAccess fuel tok.source precedence st1 with
      | .error e => .error e
      | .ok st2 =>
        match infixLoop fuel precedence st2 with
        | .error e => .error e
        | .ok st3 =>
          if precedence.canAssign ∧ st3.current.kind = .Equal then
            .error (.compileError "Invalid assignment target"
              st3.current.line st3.current.column)
          else if precedence.isConstruct ∧
              Precedence.lt st3.current.kind.precedence .Construct ∧
              st3.current.kind.precedence ≠ .None then
            .error (.compileError "Invalid construct target"
              st3.current.line st3.current.column)
          else if precedence.isDelete ∧
              Precedence.lt st3.current.kind.precedence .Call ∧
              st3.current.kind.precedence ≠ .None then
            .error (.compileError "Invalid delete target"
              st3.current.line st3.current.column)
          else .ok st3 := by
  simp only [expressionWithPrecedence, hread, hkind, hbl]

theorem variableAccess_plain (fuel : Nat) (name : List Char) (precedence : Precedence)
    (st : CState)
    (hreg : registerIndex name = none)
    (hlp : st.current.kind ≠ .LeftParen)
    (hdel : precedence.isDelete = false) :
    variableAccess (fuel + 1) name precedence st =
      access fuel (fun this => push (.str name) this) (fun this => push (.str name) this)
        (fun this => writeAction .getVariable this)
        (fun this => writeAction .setVariable this) precedence.canAssign st := by
  simp [variableAccess, CState.consume, hreg, hlp, hdel]

theorem access_read (fuel : Nat) (pk dup get set : CState → CState) (ca : Bool)
    (st : CState)
    (hna : st.current.kind.isAssign = false)
    (hpp : st.current.kind ≠ .DoublePlus)
    (hmm : st.current.kind ≠ .DoubleMinus) :
    access (fuel + 1) pk dup get set ca st = .ok (get (pk st)) := by
  simp [access, CState.consume, hna, hpp, hmm]

theorem infixLoop_go (fuel : Nat) (precedence : Precedence) (st st1 : CState) (tok : Token)
    (h : Precedence.le precedence st.current.kind.precedence = true)
    (hread : st.readToken = .ok (tok, st1))
    (hdot : tok.kind = .Dot) :
    infixLoop (fuel + 1) precedence st =
      match dot fuel precedence st1 with
      | .error e => .error e
      | .ok st2 => infixLoop fuel precedence st2 := by
  simp only [infixLoop, h, if_true, hread, hdot]

theorem infixLoop_done (fuel : Nat) (precedence : Precedence) (st : CState)
    (h : Precedence.le precedence st.current.kind.precedence = false) :
    infixLoop (fuel + 1) precedence st = .ok st := by
  simp [infixLoop, h]

theorem dot_plain (fuel : Nat) (precedence : Precedence) (st st1 : CState) (name : Token)
    (hid : st.current.kind = .Identifier)
    (hread : st.readToken = .ok (name, st1))
    (hlp : st1.current.kind ≠ .LeftParen)
    (hdel : precedence.isDelete = false)
    (hprop : propertyIndex name.source = none) :
    dot (fuel + 1) precedence st =
      access fuel (fun this => push (.str name.source) this)
        (fun this => writeAction .stackSwap
          (push (.str name.source) (writeAction .pushDuplicate this)))
        (fun this => writeAction .getMember this)
        (fun this => writeAction .setMember this) precedence.canAssign st1 := by
  simp [dot, CState.expect, CState.consume, hid, hread, hlp, hdel, hprop]


set_option maxHeartbeats 1000000 in
theorem compileTop_x_dot_ident
    (fuel : Nat) (S0 S1 S2 S3 S4 S5 : Scanner) (s : List Char)
    (l0 c0 l1 c1 l2 c2 l3 c3 l4 c4 : Nat)
    (h0 : scanRead S0 = .ok (⟨.Identifier, ['x'], l0, c0⟩, S1))
    (h1 : scanRead S1 = .ok (⟨.Dot, ['.'], l1, c1⟩, S2))
    (h2 : scanRead S2 = .ok (⟨.Identifier, s, l2, c2⟩, S3))
    (h3 : scanRead S3 = .ok (⟨.Semicolon, [';'], l3, c3⟩, S4))
    (h4 : scanRead S4 = .ok (⟨.Eof, [], l4, c4⟩, S5))
    (hprop : propertyIndex s = none) :
    compileTop (fuel + 17) ⟨S0, Token.INVALID, Buf.empty⟩ =
      .ok ⟨S5, ⟨.Eof, [], l4, c4⟩,
        ⟨[.push (.str ['x']), .getVariable, .push (.str s), .getMember, .pop],
          s.length + 14⟩⟩ := by
  have hread0 : CState.readToken ⟨S0, Token.INVALID, Buf.empty⟩ =
      .ok (Token.INVALID, ⟨S1, ⟨.Identifier, ['x'], l0, c0⟩, Buf.empty⟩) := by
    simp [CState.readToken, h0]
  have E0 : compileTop (fuel + 17) ⟨S0, Token.INVALID, Buf.empty⟩ =
      compileLoop (fuel + 17) ⟨S1, ⟨.Identifier, ['x'], l0, c0⟩, Buf.empty⟩ := by
    simp only [compileTop, hread0]
  rw [E0]
  rw [compileLoop_go _ _ (by simp)]
  rw [declaration_other _ _ (by simp) (by simp)]
  rw [statement_other _ _ (by simp) (by simp) (by simp) (by simp) (by simp)]
  rw [expressionStatement_run]
  rw [expression_run]
  have hread1 : CState.readToken ⟨S1, ⟨.Identifier, ['x'], l0, c0⟩, Buf.empty⟩ =
      .ok (⟨.Identifier, ['x'], l0, c0⟩, ⟨S2, ⟨.Dot, ['.'], l1, c1⟩, Buf.empty⟩) := by
    simp [CState.readToken, h1]
  rw [ewp_identifier _ _ _ _ _ hread1 rfl (by rfl)]
  rw [variableAccess_plain _ _ _ _ (by rfl) (by simp) (by rfl)]
  rw [access_read _ _ _ _ _ _ _ (by rfl) (by simp) (by simp)]
  have hread2 : CState.readToken
      ⟨S2, ⟨.Dot, ['.'], l1, c1⟩,
        ⟨[.push (.str ['x']), .getVariable], 7⟩⟩ =
      .ok (⟨.Dot, ['.'], l1, c1⟩,
        ⟨S3, ⟨.Identifier, s, l2, c2⟩,
          ⟨[.push (.str ['x']), .getVariable], 7⟩⟩) := by
    simp [CState.readToken, h2]
  have hstep : writeAction .getVariable (push (.str ['x'])
        ⟨S2, ⟨.Dot, ['.'], l1, c1⟩, Buf.empty⟩) =
      ⟨S2, ⟨.Dot, ['.'], l1, c1⟩, ⟨[.push (.str ['x']), .getVariable], 7⟩⟩ := by
    simp [push, writeAction, extendData, Buf.empty, asize, Value.vsize]
  rw [hstep]
  simp only []
  rw [infixLoop_go _ _ _ _ _ (by rfl) hread2 rfl]
  have hread3 : CState.readToken
      ⟨S3, ⟨.Identifier, s, l2, c2⟩,
        ⟨[.push (.str ['x']), .getVariable], 7⟩⟩ =
      .ok (⟨.Identifier, s, l2, c2⟩,
        ⟨S4, ⟨.Semicolon, [';'], l3, c3⟩,
          ⟨[.push (.str ['x']), .getVariable], 7⟩⟩) := by
    simp [CState.readToken, h3]
  rw [dot_plain _ _ _ _ _ rfl hread3 (by simp) (by rfl) hprop]
  rw [access_read _ _ _ _ _ _ _ (by rfl) (by simp) (by simp)]
  have hstep2 : writeAction .getMember (push (.str s)
        ⟨S4, ⟨.Semicolon, [';'], l3, c3⟩,
          ⟨[.push (.str ['x']), .getVariable], 7⟩⟩) =
      ⟨S4, ⟨.Semicolon, [';'], l3, c3⟩,
        ⟨[.push (.str ['x']), .getVariable, .push (.str s), .getMember],
          s.length + 13⟩⟩ := by
    simp [push, writeAction, extendData, asize, Value.vsize]
    omega
  rw [hstep2]
  simp only []
  rw [infixLoop_done _ _ _ (by rfl)]
  have hread4 : CState.readToken
      ⟨S4, ⟨.Semicolon, [';'], l3, c3⟩,
        ⟨[.push (.str ['x']), .getVariable, .push (.str s), .getMember],
          s.length + 13⟩⟩ =
      .ok (⟨.Semicolon, [';'], l3, c3⟩,
        ⟨S5, ⟨.Eof, [], l4, c4⟩,
          ⟨[.push (.str ['x']), .getVariable, .push (.str s), .getMember],
            s.length + 13⟩⟩) := by
    simp [CState.readToken, h4]
  have hn1 : Precedence.isConstruct .Assignment = false := by rfl
  have hn2 : Precedence.isDelete .Assignment = false := by rfl
  simp [CState.expect, hread4, writeAction, extendData, asize, hn1, hn2]
  rw [compileLoop_eof _ _ (by rfl)]


theorem c9_part_b (c : Char) (t : List Char)
    (hc : identStart c = true) (ht : ∀ d ∈ t, identCont d = true)
    (hkw : keywordKind (c :: t) = .Identifier)
    (hprop : propertyIndex (c :: t) = none) :
    compileActs ('x' :: '.' :: ((c :: t) ++ [';'])) =
      .ok [.push (.str ['x']), .getVariable, .push (.str (c :: t)), .getMember, .pop] := by
  have T0 := scanRead_x c t
  have T1 := scanRead_dot c t
  have T2 := scanRead_ident c t hc ht
  rw [hkw] at T2
  have hdrop : ('x' :: '.' :: ((c :: t) ++ [';'])).drop (t.length + 3) = [';'] := by
    simp only [List.cons_append, List.drop_succ_cons, List.drop_left]
  have hlen : t.length + 3 + 1 ≤ ('x' :: '.' :: ((c :: t) ++ [';'])).length := by
    simp
  have T3 := scanRead_semicolon ('x' :: '.' :: ((c :: t) ++ [';']))
    (t.length + 3) (t.length + 2) 1 (t.length + 4) hdrop hlen
  have T3' : scanRead ⟨'x' :: '.' :: ((c :: t) ++ [';']), [';'],
        t.length + 3, t.length + 2, 1, t.length + 4⟩ =
      .ok (⟨.Semicolon, [';'], 1, t.length + 4⟩,
        ⟨'x' :: '.' :: ((c :: t) ++ [';']), [], t.length + 4, t.length + 3, 1,
          t.length + 5⟩) := by rw [T3]
  have T4 := scanRead_eof ('x' :: '.' :: ((c :: t) ++ [';']))
    (t.length + 4) (t.length + 3) 1 (t.length + 5) (by simp)
  have KEY := compileTop_x_dot_ident (8 * t.length + 79) _ _ _ _ _ _ _ _ _ _ _ _ _ _ _ _ _
    T0 T1 T2 T3' T4 hprop
  have hfuel : 8 * ('x' :: '.' :: ((c :: t) ++ [';'])).length + 64 =
      8 * t.length + 79 + 17 := by
    simp
    omega
  simp only [compileActs, compileSrc]
  rw [hfuel, KEY]


theorem dot_property (fuel : Nat) (precedence : Precedence) (st st1 : CState)
    (name : Token) (idx : Int)
    (hid : st.current.kind = .Identifier)
    (hread : st.readToken = .ok (name, st1))
    (hlp : st1.current.kind ≠ .LeftParen)
    (hdel : precedence.isDelete = false)
    (hprop : propertyIndex name.source = some idx) :
    dot (fuel + 1) precedence st =
      access fuel (fun this => push (.int idx) this)
        (fun this => writeAction .stackSwap
          (push (.int idx) (writeAction .pushDuplicate this)))
        (fun this => writeAction .getProperty this)
        (fun this => writeAction .setProperty this) precedence.canAssign st1 := by
  simp [dot, CState.expect, CState.consume, hid, hread, hlp, hdel, hprop]

set_option maxHeartbeats 1000000 in
theorem compileTop_x_dot_property
    (fuel : Nat) (S0 S1 S2 S3 S4 S5 : Scanner) (s : List Char) (idx : Int)
    (l0 c0 l1 c1 l2 c2 l3 c3 l4 c4 : Nat)
    (h0 : scanRead S0 = .ok (⟨.Identifier, ['x'], l0, c0⟩, S1))
    (h1 : scanRead S1 = .ok (⟨.Dot, ['.'], l1, c1⟩, S2))
    (h2 : scanRead S2 = .ok (⟨.Identifier, s, l2, c2⟩, S3))
    (h3 : scanRead S3 = .ok (⟨.Semicolon, [';'], l3, c3⟩, S4))
    (h4 : scanRead S4 = .ok (⟨.Eof, [], l4, c4⟩, S5))
    (hprop : propertyIndex s = some idx) :
    compileTop (fuel + 17) ⟨S0, Token.INVALID, Buf.empty⟩ =
      .ok ⟨S5, ⟨.Eof, [], l4, c4⟩,
        ⟨[.push (.str ['x']), .getVariable, .push (.int idx), .getProperty, .pop],
          17⟩⟩ := by
  have hread0 : CState.readToken ⟨S0, Token.INVALID, Buf.empty⟩ =
      .ok (Token.INVALID, ⟨S1, ⟨.Identifier, ['x'], l0, c0⟩, Buf.empty⟩) := by
    simp [CState.readToken, h0]
  have E0 : compileTop (fuel + 17) ⟨S0, Token.INVALID, Buf.empty⟩ =
      compileLoop (fuel + 17) ⟨S1, ⟨.Identifier, ['x'], l0, c0⟩, Buf.empty⟩ := by
    simp only [compileTop, hread0]
  rw [E0]
  rw [compileLoop_go _ _ (by simp)]
  rw [declaration_other _ _ (by simp) (by simp)]
  rw [statement_other _ _ (by simp) (by simp) (by simp) (by simp) (by simp)]
  rw [expressionStatement_run]
  rw [expression_run]
  have hread1 : CState.readToken ⟨S1, ⟨.Identifier, ['x'], l0, c0⟩, Buf.empty⟩ =
      .ok (⟨.Identifier, ['x'], l0, c0⟩, ⟨S2, ⟨.Dot, ['.'], l1, c1⟩, Buf.empty⟩) := by
    simp [CState.readToken, h1]
  rw [ewp_identifier _ _ _ _ _ hread1 rfl (by rfl)]
  rw [variableAccess_plain _ _ _ _ (by rfl) (by simp) (by rfl)]
  rw [access_read _ _ _ _ _ _ _ (by rfl) (by simp) (by simp)]
  have hread2 : CState.readToken
      ⟨S2, ⟨.Dot, ['.'], l1, c1⟩,
        ⟨[.push (.str ['x']), .getVariable], 7⟩⟩ =
      .ok (⟨.Dot, ['.'], l1, c1⟩,
        ⟨S3, ⟨.Identifier, s, l2, c2⟩,
          ⟨[.push (.str ['x']), .getVariable], 7⟩⟩) := by
    simp [CState.readToken, h2]
  have hstep : writeAction .getVariable (push (.str ['x'])
        ⟨S2, ⟨.Dot, ['.'], l1, c1⟩, Buf.empty⟩) =
      ⟨S2, ⟨.Dot, ['.'], l1, c1⟩, ⟨[.push (.str ['x']), .getVariable], 7⟩⟩ := by
    simp [push, writeAction, extendData, Buf.empty, asize, Value.vsize]
  rw [hstep]
  simp only []
  rw [infixLoop_go _ _ _ _ _ (by rfl) hread2 rfl]
  have hread3 : CState.readToken
      ⟨S3, ⟨.Identifier, s, l2, c2⟩,
        ⟨[.push (.str ['x']), .getVariable], 7⟩⟩ =
      .ok (⟨.Identifier, s, l2, c2⟩,
        ⟨S4, ⟨.Semicolon, [';'], l3, c3⟩,
          ⟨[.push (.str ['x']), .getVariable], 7⟩⟩) := by
    simp [CState.readToken, h3]
  rw [dot_property _ _ _ _ _ _ rfl hread3 (by simp) (by rfl) hprop]
  rw [access_read _ _ _ _ _ _ _ (by rfl) (by simp) (by simp)]
  have hstep2 : writeAction .getProperty (push (.int idx)
        ⟨S4, ⟨.Semicolon, [';'], l3, c3⟩,
          ⟨[.push (.str ['x']), .getVariable], 7⟩⟩) =
      ⟨S4, ⟨.Semicolon, [';'], l3, c3⟩,
        ⟨[.push (.str ['x']), .getVariable, .push (.int idx), .getProperty],
          16⟩⟩ := by
    simp [push, writeAction, extendData, asize, Value.vsize]
  rw [hstep2]
  simp only []
  rw [infixLoop_done _ _ _ (by rfl)]
  have hread4 : CState.readToken
      ⟨S4, ⟨.Semicolon, [';'], l3, c3⟩,
        ⟨[.push (.str ['x']), .getVariable, .push (.int idx), .getProperty],
          16⟩⟩ =
      .ok (⟨.Semicolon, [';'], l3, c3⟩,
        ⟨S5, ⟨.Eof, [], l4, c4⟩,
          ⟨[.push (.str ['x']), .getVariable, .push (.int idx), .getProperty],
            16⟩⟩) := by
    simp [CState.readToken, h4]
  have hn1 : Precedence.isConstruct .Assignment = false := by rfl
  have hn2 : Precedence.isDelete .Assignment = false := by rfl
  simp [CState.expect, hread4, writeAction, extendData, asize, hn1, hn2]
  rw [compileLoop_eof _ _ (by rfl)]

theorem c9_part_a (c : Char) (t : List Char) (idx : Int)
    (hc : identStart c = true) (ht : ∀ d ∈ t, identCont d = true)
    (hkw : keywordKind (c :: t) = .Identifier)
    (hprop : propertyIndex (c :: t) = some idx) :
    compileActs ('x' :: '.' :: ((c :: t) ++ [';'])) =
      .ok [.push (.str ['x']), .getVariable, .push (.int idx), .getProperty, .pop] := by
  have T0 := scanRead_x c t
  have T1 := scanRead_dot c t
  have T2 := scanRead_ident c t hc ht
  rw [hkw] at T2
  have hdrop : ('x' :: '.' :: ((c :: t) ++ [';'])).drop (t.length + 3) = [';'] := by
    simp only [List.cons_append, List.drop_succ_cons, List.drop_left]
  have hlen : t.length + 3 + 1 ≤ ('x' :: '.' :: ((c :: t) ++ [';'])).length := by
    simp
  have T3 := scanRead_semicolon ('x' :: '.' :: ((c :: t) ++ [';']))
    (t.length + 3) (t.length + 2) 1 (t.length + 4) hdrop hlen
  have T3' : scanRead ⟨'x' :: '.' :: ((c :: t) ++ [';']), [';'],
        t.length + 3, t.length + 2, 1, t.length + 4⟩ =
      .ok (⟨.Semicolon, [';'], 1, t.length + 4⟩,
        ⟨'x' :: '.' :: ((c :: t) ++ [';']), [], t.length + 4, t.length + 3, 1,
          t.length + 5⟩) := by rw [T3]
  have T4 := scanRead_eof ('x' :: '.' :: ((c :: t) ++ [';']))
    (t.length + 4) (t.length + 3) 1 (t.length + 5) (by simp)
  have KEY := compileTop_x_dot_property (8 * t.length + 79) _ _ _ _ _ _ _ idx _ _ _ _ _ _ _ _ _ _
    T0 T1 T2 T3' T4 hprop
  have hfuel : 8 * ('x' :: '.' :: ((c :: t) ++ [';'])).length + 64 =
      8 * t.length + 79 + 17 := by
    simp
    omega
  simp only [compileActs, compileSrc]
  rw [hfuel, KEY]


/-- C9. Dot access `x.NAME;` dispatches on the property table: when
`NAME` is one of the 22 built-in property names the compiler pushes the
property index as an integer and emits `GetProperty`; for any other
plain identifier it pushes the name as a string and emits `GetMember`. -/
theorem c9_dot_property_dispatch :
    (∀ (c : Char) (t : List Char) (idx : Int),
      identStart c = true → (∀ d ∈ t, identCont d = true) →
      keywordKind (c :: t) = .Identifier →
      propertyIndex (c :: t) = some idx →
      compileActs ('x' :: '.' :: ((c :: t) ++ [';'])) =
        .ok [.push (.str ['x']), .getVariable, .push (.int idx), .getProperty, .pop]) ∧
    (∀ (c : Char) (t : List Char),
      identStart c = true → (∀ d ∈ t, identCont d = true) →
      keywordKind (c :: t) = .Identifier →
      propertyIndex (c :: t) = none →
      compileActs ('x' :: '.' :: ((c :: t) ++ [';'])) =
        .ok [.push (.str ['x']), .getVariable, .push (.str (c :: t)),
          .getMember, .pop]) :=
  ⟨fun c t idx hc ht hkw hp => c9_part_a c t idx hc ht hkw hp,
   fun c t hc ht hkw hp => c9_part_b c t hc ht hkw hp⟩

/-- Witness for C9 at the property `_x` (index 0) and the plain member
`foo`. -/
theorem c9_dot_property_dispatch_witness :
    compileActs ('x' :: '.' :: (('_' :: ['x']) ++ [';'])) =
      .ok [.push (.str ['x']), .getVariable, .push (.int 0), .getProperty, .pop] ∧
    compileActs ('x' :: '.' :: (('f' :: ['o', 'o']) ++ [';'])) =
      .ok [.push (.str ['x']), .getVariable, .push (.str ('f' :: ['o', 'o'])),
        .getMember, .pop] :=
  ⟨c9_dot_property_dispatch.1 '_' ['x'] 0 (by decide) (by decide) (by rfl) (by rfl),
   c9_dot_property_dispatch.2 'f' ['o', 'o'] (by decide) (by decide) (by rfl) (by rfl)⟩

end Asc
